import Mathlib

/-!
# QOtaClientAsync: a shallow embedding of `src/lib/qotaclientasync.cpp`

The worker object of the Qt OTA update client drives an OSTree sysroot: it takes
the multi-process sysroot lock, runs `ostree` commands through `QProcess`, reads
and rewrites the deployment list, and reports through Qt signals.

Embedding conventions.

* Every Qt signal emission and every call into a collaborator (libostree, GLib,
  `QProcess`) is appended to a trace of `Event`s, in program order.
* What a collaborator answers is an input of the model: each call site of an
  operation has its own outcome in the operation's environment record, so that
  every combination of outcomes is covered by a universally quantified
  environment.
* GLib calls follow the `GError` contract: a call fails exactly when it sets the
  error, so the outcome of a `gboolean` call is `Option String` (`none` is
  success, `some msg` the error message) and of a call with a result
  `Except String _`.
* Reading `pdata[i]` beyond the end of a `GPtrArray`, and dereferencing a null
  deployment, is undefined behaviour: the operations return `Option State` and
  `none` stands for such a run.
* `guint64` timestamps are natural numbers; no arithmetic is done on them, they
  are only compared and printed.
* The header `qotaclientasync_p.h` is not among the sources, so the default value
  of the parameter `updateStatus` of `ostree` is not known: it is the parameter
  `updateStatusDefault` of every function that calls `ostree` with two
  arguments.
* Debug logging (`qCDebug`) is left out, and with it the `method` argument of
  `multiprocessLock`.
-/

namespace QOta

/-! ## Data model -/

/-- An `OstreeDeployment`, of which the client only reads the checksum. -/
structure Deployment where
  csum : String
  deriving DecidableEq, Repr

/-- A `QJsonDocument`: `none` is the null document, `some text` a parsed one. -/
structure QJsonDocument where
  content : Option String
  deriving DecidableEq, Repr

/-- Signals emitted by the worker and calls made to its collaborators. -/
inductive Event where
  | errorOccurred (message : String)
  | statusStringChanged (text : String)
  | initializeFinished (defaultRev bootedRev : String) (bootedInfo : QJsonDocument)
      (remoteRev : String) (remoteInfo : QJsonDocument)
  | fetchRemoteInfoFinished (remoteRev : String) (remoteInfo : QJsonDocument) (ok : Bool)
  | updateFinished (defaultRev : String) (ok : Bool)
  | rollbackFinished (defaultRev : String) (ok : Bool)
  | applyOfflineFinished (ok : Bool)
  | rollbackChanged (rev : String) (info : QJsonDocument) (deploymentCount : Nat)
  | processStart (command : String)
  | sysrootLock (acquired : Bool)
  | sysrootUnlock
  | sysrootLoad
  | sysrootWriteDeployments (newDeployments : List Deployment)
  | repoReadCommit (commit : String)
  | repoLoadCommit (commit : String)
  | mappedFileNew (path : String)
  deriving DecidableEq, Repr

/-! ## QString helpers -/

/-- A piece of a scanned format string: a character, or a place marker with its number
and its source text. -/
inductive ArgPiece where
  | lit (c : Char)
  | marker (n : Nat) (raw : List Char)
  deriving DecidableEq, Repr

/-- Scanner state of `findArgEscapes`. -/
inductive ArgScan where
  | idle
  | percent
  | percentL
  | digit (raw : List Char) (n : Nat)

/-- Value of an ASCII decimal digit, as `QChar::digitValue` gives it for these characters;
digits of other scripts count as plain characters here. -/
def digitValue (c : Char) : Option Nat :=
  if 48 ≤ c.toNat ∧ c.toNat ≤ 57 then some (c.toNat - 48) else none

/-- Scan of a format string for place markers, after Qt's `findArgEscapes`: a marker is
a percent sign, an optional `L`, and one or two digits. -/
def findArgEscapes : ArgScan → List Char → List ArgPiece
  | .idle, [] => []
  | .percent, [] => [.lit '%']
  | .percentL, [] => [.lit '%', .lit 'L']
  | .digit raw n, [] => [.marker n raw]
  | .idle, c :: cs =>
    if c = '%' then findArgEscapes .percent cs else .lit c :: findArgEscapes .idle cs
  | .percent, c :: cs =>
    if c = 'L' then findArgEscapes .percentL cs
    else match digitValue c with
      | some d => findArgEscapes (.digit ['%', c] d) cs
      | none =>
        .lit '%' ::
          (if c = '%' then findArgEscapes .percent cs else .lit c :: findArgEscapes .idle cs)
  | .percentL, c :: cs =>
    match digitValue c with
    | some d => findArgEscapes (.digit ['%', 'L', c] d) cs
    | none =>
      .lit '%' :: .lit 'L' ::
        (if c = '%' then findArgEscapes .percent cs else .lit c :: findArgEscapes .idle cs)
  | .digit raw n, c :: cs =>
    match digitValue c with
    | some d => .marker (10 * n + d) (raw ++ [c]) :: findArgEscapes .idle cs
    | none =>
      .marker n raw ::
        (if c = '%' then findArgEscapes .percent cs else .lit c :: findArgEscapes .idle cs)

/-- Lowest place-marker number of a scanned string. -/
def minEscape : List ArgPiece → Option Nat
  | [] => none
  | .lit _ :: ps => minEscape ps
  | .marker n _ :: ps =>
    match minEscape ps with
    | none => some n
    | some m => some (min n m)

/-- Replace every marker numbered `m` by `a` and keep the rest as written. -/
def replaceArgEscapes (m : Nat) (a : List Char) : List ArgPiece → List Char
  | [] => []
  | .lit c :: ps => c :: replaceArgEscapes m a ps
  | .marker n raw :: ps => (if n = m then a else raw) ++ replaceArgEscapes m a ps

/-- The call `QString::arg(a)`: the lowest-numbered place marker is replaced by `a`; a string
without a marker is returned as it is. -/
def qarg (s a : String) : String :=
  match minEscape (findArgEscapes .idle s.data) with
  | none => s
  | some m => String.mk (replaceArgEscapes m a.data (findArgEscapes .idle s.data))

/-- The call `QString::startsWith`. -/
def startsWith (s pre : String) : Bool := pre.data.isPrefixOf s.data

/-- The call `QString::endsWith`. -/
def endsWith (s suf : String) : Bool := suf.data.isSuffixOf s.data

/-- White space in the sense of `QByteArray::trimmed`. -/
def isSpace (c : Char) : Bool := c.toNat = 32 || (9 ≤ c.toNat && c.toNat ≤ 13)

/-- The call `QByteArray::trimmed`: white space removed from both ends. -/
def trimmed (s : String) : String :=
  String.mk ((s.data.dropWhile isSpace).reverse.dropWhile isSpace).reverse

/-! ## The command executor -/

/-- Source function `parseErrorString`: drops the first `qstrlen("error: ")` characters and
rewrites the "Remote ... not found" message. -/
def parseErrorString (error : String) : String :=
  let e := String.mk (error.data.drop 7)
  if startsWith e "Remote" && endsWith e "not found" then
    "Repository configuration not found"
  else e

/-- What a `QProcess` does during one call of `ostree`: whether it starts; the lines that
can be read after each `waitForFinished(200)` that timed out; whether the last wait returns
true (otherwise it fails with an error other than a timeout); the lines readable after that
last wait; the exit code of the process; and `errorString()`. A process that runs for ever is
not represented. -/
structure ProcessRun where
  started : Bool
  timedOut : List (List String)
  finished : Bool
  lastLines : List String
  exitCode : Int
  errorString : String
  deriving DecidableEq, Repr

/-- Locals of `ostree` that the read loop updates, with the signals emitted so far. -/
structure OstreeResult where
  out : String
  ok : Bool
  events : List Event
  deriving DecidableEq, Repr

/-- Body of the `while (ostree.canReadLine())` loop for one line. -/
def readLine (updateStatus : Bool) (acc : OstreeResult) (raw : String) : OstreeResult :=
  let bytesRead := trimmed raw
  if bytesRead.data.isEmpty then acc
  else if startsWith bytesRead "error:" then
    let line := parseErrorString bytesRead
    { out := acc.out ++ line, ok := false, events := acc.events ++ [.errorOccurred line] }
  else
    { out := acc.out ++ bytesRead, ok := acc.ok,
      events := if updateStatus then acc.events ++ [.statusStringChanged bytesRead]
                else acc.events }

/-- The `while (ostree.canReadLine())` loop over the lines available. -/
def readLines (updateStatus : Bool) (acc : OstreeResult) (lines : List String) : OstreeResult :=
  lines.foldl (readLine updateStatus) acc

/-- The `do ... while (!finished)` loop of `ostree`: the waits that time out, then the
last one. -/
def waitLoop (p : ProcessRun) (command : String) (updateStatus : Bool) :
    List (List String) → OstreeResult → OstreeResult
  | [], acc =>
    if p.finished then readLines updateStatus acc p.lastLines
    else
      { out := "", ok := false,
        events := acc.events ++
          [.errorOccurred ("Process failed: " ++ command ++ " : " ++ p.errorString)] }
  | lines :: rest, acc => waitLoop p command updateStatus rest (readLines updateStatus acc lines)

/-- Source function `QOtaClientAsync::ostree(command, ok, updateStatus)`: `ok` is the value
of `*ok` on entry, the result carries its value on return. -/
def ostree (p : ProcessRun) (command : String) (ok : Bool) (updateStatus : Bool) :
    OstreeResult :=
  if !p.started then
    { out := "", ok := false,
      events := [.processStart command,
        .errorOccurred ("Failed to start: " ++ command ++ " : " ++ p.errorString)] }
  else
    waitLoop p command updateStatus p.timedOut
      { out := "", ok := ok, events := [.processStart command] }

/-! ## Worker state and helpers -/

/-- What the worker's run depends on and leaves behind: whether this process holds the
sysroot lock, the deployment list held in memory by the `OstreeSysroot`, and the trace. -/
structure State where
  lockHeld : Bool
  deployments : List Deployment
  trace : List Event
  deriving DecidableEq, Repr

/-- Append events to the trace. -/
def State.emit (s : State) (es : List Event) : State :=
  { s with trace := s.trace ++ es }

/-- Source function `multiprocessUnlock`. -/
def multiprocessUnlock (s : State) : State :=
  { s with lockHeld := false, trace := s.trace ++ [.sysrootUnlock] }

/-- Source function `emitGError`: with an error set, reports it, unlocks and returns true. -/
def emitGError (error : Option String) (s : State) : Bool × State :=
  match error with
  | none => (false, s)
  | some message => (true, multiprocessUnlock (s.emit [.errorOccurred message]))

/-- Source function `multiprocessLock`; `lock` is the outcome of `ostree_sysroot_lock`, which
takes the lock exactly when it sets no error. -/
def multiprocessLock (lock : Option String) (s : State) : Bool × State :=
  let s1 : State :=
    match lock with
    | none => { s with lockHeld := true, trace := s.trace ++ [.sysrootLock true] }
    | some _ => s.emit [.sysrootLock false]
  let r := emitGError lock s1
  if r.1 then (false, r.2) else (true, r.2)

/-- The call `ostree_sysroot_load`: on success the in-memory list is the one read from
disk. Returns the error that was set, if any. -/
def sysrootLoad (load : Except String (List Deployment)) (s : State) : Option String × State :=
  match load with
  | .ok onDisk => (none, { s with deployments := onDisk, trace := s.trace ++ [.sysrootLoad] })
  | .error message => (some message, s.emit [.sysrootLoad])

/-- Source function `defaultRevision`: checksum of `pdata[0]`. -/
def defaultRevision (s : State) : Option String :=
  s.deployments[0]?.map (·.csum)

/-- Targets of `info`. -/
inductive QueryTarget where
  | Booted
  | Remote
  | Rollback
  deriving DecidableEq, Repr

/-- Collaborators of one call of `info`: the content of `/usr/etc/qt-ota.json` when the file
opens, the run of the `ostree cat` command, and `QJsonDocument::fromJson`, which gives the
parsed document or the parser's error string. -/
structure InfoEnv where
  metadataFile : Option String
  cat : ProcessRun
  fromJson : String → Except String String

/-- Result of `info`: the document, `*ok` on return, and the signals emitted. -/
structure InfoResult where
  doc : QJsonDocument
  ok : Bool
  events : List Event
  deriving DecidableEq, Repr

/-- Source function `info(target, ok, rev)`. The Latin-1 conversions of the text are
not modelled. -/
def info (updateStatusDefault : Bool) (env : InfoEnv) (target : QueryTarget) (ok : Bool)
    (rev : String) : InfoResult :=
  let r : OstreeResult :=
    match target with
    | .Booted => { out := env.metadataFile.getD "", ok := ok, events := [] }
    | .Remote =>
      ostree env.cat (qarg "ostree cat %1 /usr/etc/qt-ota.json" rev) ok updateStatusDefault
    | .Rollback =>
      ostree env.cat (qarg "ostree cat %1 /usr/etc/qt-ota.json" rev) ok updateStatusDefault
  if r.out.data.isEmpty then { doc := ⟨none⟩, ok := r.ok, events := r.events }
  else
    match env.fromJson r.out with
    | .ok doc => { doc := ⟨some doc⟩, ok := r.ok, events := r.events }
    | .error parseError =>
      { doc := ⟨none⟩, ok := false,
        events := r.events ++
          [.errorOccurred
            (qarg (qarg "failed to parse JSON file, error: %1, data: %2" parseError) r.out)] }

/-- Source function `rollbackIndex`. -/
def rollbackIndex (s : State) : Int :=
  if s.deployments.length < 2 then -1 else 1

/-- Source function `resetRollbackState`. -/
def resetRollbackState (updateStatusDefault : Bool) (env : InfoEnv) (s : State) :
    Option State :=
  let index := rollbackIndex s
  if index = -1 then some s
  else do
    let rollbackDeployment ← s.deployments[index.toNat]?
    let rollbackRev := rollbackDeployment.csum
    let r := info updateStatusDefault env .Rollback true rollbackRev
    some (s.emit (r.events ++ [.rollbackChanged rollbackRev r.doc s.deployments.length]))

/-- Source function `emitRollbackFailed`. -/
def emitRollbackFailed (error : String) (s : State) : State :=
  multiprocessUnlock (s.emit [.errorOccurred error, .rollbackFinished "" false])

/-- Collaborators of `deployCommit`: the outcome of `ostree_repo_read_commit`, whether
`g_file_read` opens `/usr/lib/ostree-boot/kargs` in the commit, and the runs of the
`ostree cat` and `ostree admin deploy` commands. -/
structure DeployEnv where
  readCommit : Option String
  kargsFile : Bool
  catKargs : ProcessRun
  deploy : ProcessRun
  deriving DecidableEq, Repr

/-- The `ostree admin deploy` command line built by `deployCommit`. -/
def deployCommand (kernelArgs commit : String) : String :=
  qarg (qarg "ostree admin deploy --karg-none %1 %2" kernelArgs) commit

/-- Source function `deployCommit`. -/
def deployCommit (updateStatusDefault : Bool) (env : DeployEnv) (commit : String)
    (s : State) : Bool × State :=
  let s := s.emit [.repoReadCommit commit]
  match env.readCommit with
  | some message => (false, (emitGError (some message) s).2)
  | none =>
    let k : OstreeResult :=
      if env.kargsFile then
        ostree env.catKargs (qarg "ostree cat %1 /usr/lib/ostree-boot/kargs" commit) true
          updateStatusDefault
      else { out := "", ok := true, events := [] }
    let s := s.emit (k.events ++ [.statusStringChanged "Deploying..."])
    if k.ok then
      let d := ostree env.deploy (deployCommand k.out commit) k.ok true
      (d.ok, s.emit d.events)
    else (k.ok, s)

/-! ## The public operations -/

/-- Collaborators of `_initialize`. -/
structure InitializeEnv where
  lock : Option String
  load : Except String (List Deployment)
  booted : Option Deployment
  bootedInfo : InfoEnv
  revParse : ProcessRun
  remoteInfo : InfoEnv
  rollbackInfo : InfoEnv

/-- Source function `_initialize`. -/
def _initialize (updateStatusDefault : Bool) (env : InitializeEnv) (s : State) :
    Option State :=
  let l := multiprocessLock env.lock s
  if !l.1 then some l.2
  else
    let ld := sysrootLoad env.load l.2
    let g := emitGError ld.1 ld.2
    if g.1 then some g.2
    else do
      let bootedDeployment ← env.booted
      let bootedRev := bootedDeployment.csum
      let bootedInfo := info updateStatusDefault env.bootedInfo .Booted true ""
      let s1 := g.2.emit bootedInfo.events
      let defaultRev ← defaultRevision s1
      let remote := ostree env.revParse "ostree rev-parse linux/qt" bootedInfo.ok
        updateStatusDefault
      let s2 := s1.emit remote.events
      let remoteInfo := info updateStatusDefault env.remoteInfo .Remote remote.ok remote.out
      let s3 := s2.emit remoteInfo.events
      let s4 ← resetRollbackState updateStatusDefault env.rollbackInfo s3
      some (multiprocessUnlock (s4.emit
        [.initializeFinished defaultRev bootedRev bootedInfo.doc remote.out remoteInfo.doc]))

/-- Collaborators of `_fetchRemoteInfo`. -/
structure FetchRemoteInfoEnv where
  lock : Option String
  pullMetadata : ProcessRun
  pullSubpath : ProcessRun
  revParse : ProcessRun
  remoteInfo : InfoEnv

/-- Source function `_fetchRemoteInfo`. -/
def _fetchRemoteInfo (updateStatusDefault : Bool) (env : FetchRemoteInfoEnv) (s : State) :
    State :=
  let l := multiprocessLock env.lock s
  if !l.1 then l.2
  else
    let r1 := ostree env.pullMetadata
      "ostree pull --commit-metadata-only --disable-static-deltas qt-os linux/qt" true
      updateStatusDefault
    let r2 : OstreeResult :=
      if r1.ok then
        ostree env.pullSubpath "ostree pull --subpath=/usr/etc/qt-ota.json qt-os linux/qt"
          r1.ok updateStatusDefault
      else { out := "", ok := r1.ok, events := [] }
    let r3 : OstreeResult :=
      if r2.ok then ostree env.revParse "ostree rev-parse linux/qt" r2.ok updateStatusDefault
      else { out := "", ok := r2.ok, events := [] }
    let remoteRev := r3.out
    let r4 : InfoResult :=
      if r3.ok then info updateStatusDefault env.remoteInfo .Remote r3.ok remoteRev
      else { doc := ⟨none⟩, ok := r3.ok, events := [] }
    multiprocessUnlock ((l.2.emit (r1.events ++ r2.events ++ r3.events ++ r4.events)).emit
      [.fetchRemoteInfoFinished remoteRev r4.doc r4.ok])

/-- Collaborators of `_update`. -/
structure UpdateEnv where
  lock : Option String
  pull : ProcessRun
  deploy : DeployEnv
  load : Except String (List Deployment)
  rollbackInfo : InfoEnv

/-- Source function `_update`. -/
def _update (updateStatusDefault : Bool) (env : UpdateEnv) (updateToRev : String)
    (s : State) : Option State :=
  let l := multiprocessLock env.lock s
  if !l.1 then some l.2
  else
    let s1 := l.2.emit [.statusStringChanged "Checking for missing objects..."]
    let p := ostree env.pull (qarg "ostree pull qt-os:%1" updateToRev) true true
    let s2 := multiprocessUnlock (s1.emit p.events)
    if !p.ok then some (s2.emit [.updateFinished "" p.ok])
    else
      let d := deployCommit updateStatusDefault env.deploy updateToRev s2
      if !d.1 then some (d.2.emit [.updateFinished "" d.1])
      else
        let ld := sysrootLoad env.load d.2
        let g := emitGError ld.1 ld.2
        if g.1 then some g.2
        else do
          let s3 ← resetRollbackState updateStatusDefault env.rollbackInfo g.2
          let defaultRev ← defaultRevision s3
          some (s3.emit [.updateFinished defaultRev d.1])

/-- Collaborators of `_rollback`: `write` is the outcome of
`ostree_sysroot_write_deployments`. -/
structure RollbackEnv where
  lock : Option String
  load : Except String (List Deployment)
  write : Option String
  rollbackInfo : InfoEnv

/-- The list `newDeployments` that `_rollback` builds: `pdata[index]` first, then the
`for` loop over every position other than `index`. -/
def newDeployments (deployments : List Deployment) (index : Nat) :
    Option (List Deployment) := do
  let first ← deployments[index]?
  (List.range deployments.length).foldlM
    (fun acc i =>
      if i = index then some acc
      else (deployments[i]?).map (fun d => acc ++ [d]))
    [first]

/-- Source function `_rollback`. A successful `ostree_sysroot_write_deployments` leaves the
written list as the sysroot's in-memory list. -/
def _rollback (updateStatusDefault : Bool) (env : RollbackEnv) (s : State) : Option State :=
  let l := multiprocessLock env.lock s
  if !l.1 then some l.2
  else
    let ld := sysrootLoad env.load l.2
    let g := emitGError ld.1 ld.2
    if g.1 then some g.2
    else
      let index := rollbackIndex g.2
      if index = -1 then
        some (emitRollbackFailed "At least 2 system versions required for rollback" g.2)
      else do
        let newList ← newDeployments g.2.deployments index.toNat
        let s1 := g.2.emit [.sysrootWriteDeployments newList]
        match env.write with
        | some message =>
          some (emitRollbackFailed "Failed to update bootloader configuration"
            (emitGError (some message) s1).2)
        | none =>
          let s2 : State := { s1 with deployments := newList }
          let s3 ← resetRollbackState updateStatusDefault env.rollbackInfo s2
          let defaultRev ← defaultRevision s3
          some (multiprocessUnlock (s3.emit [.rollbackFinished defaultRev true]))

/-- The parts of the delta superblock that `_applyOffline` reads: the outcome of
`ostree_validate_structureof_commit` on child 4 and the timestamp of that commit, the outcome
of `ostree_validate_structureof_csum_v` on child 3 and the checksum it encodes. -/
structure DeltaSuperblock where
  commitStructure : Option String
  commitTimestamp : Nat
  csumStructure : Option String
  toCsum : String
  deriving DecidableEq, Repr

/-- Collaborators of `_applyOffline`: the outcome of `g_mapped_file_new` with the superblock
read from the mapped bytes, the run of `ostree rev-parse`, the outcome of
`ostree_repo_load_commit` with the timestamp of the loaded commit, and the runs of the
`apply-offline` and `reset` commands and of the deploy step. -/
structure ApplyOfflineEnv where
  mappedFile : Except String DeltaSuperblock
  revParse : ProcessRun
  loadCommit : Except String Nat
  applyOffline : ProcessRun
  reset : ProcessRun
  deploy : DeployEnv

/-- The text of the downgrade error of `_applyOffline`. -/
def downgradeMessage (currentTimestamp packageTimestamp : Nat) : String :=
  qarg
    (qarg "Not allowed to downgrade - current timestamp: %1, package timestamp: %2"
      (toString currentTimestamp))
    (toString packageTimestamp)

/-- The `ostree static-delta apply-offline` command line of `_applyOffline`. -/
def applyOfflineCommand (packagePath : String) : String :=
  qarg "ostree static-delta apply-offline %1" packagePath

/-- The `ostree reset` command line of `_applyOffline`. -/
def resetCommand (toCsum : String) : String :=
  qarg "ostree reset qt-os:linux/qt %1" toCsum

/-- The label `out:` of `_applyOffline`. -/
def applyOfflineOut (error : Option String) (success : Bool) (s : State) : State :=
  (emitGError error s).2.emit [.applyOfflineFinished success]

/-- Source function `_applyOffline`. -/
def _applyOffline (updateStatusDefault : Bool) (env : ApplyOfflineEnv) (packagePath : String)
    (s : State) : State :=
  let s0 := s.emit [.mappedFileNew packagePath]
  match env.mappedFile with
  | .error message => applyOfflineOut (some message) false s0
  | .ok deltaSuperblock =>
    match deltaSuperblock.commitStructure with
    | some message => applyOfflineOut (some message) false s0
    | none =>
      let packageTimestamp := deltaSuperblock.commitTimestamp
      let cur := ostree env.revParse "ostree rev-parse linux/qt" true updateStatusDefault
      let s1 := s0.emit cur.events
      if !cur.ok then applyOfflineOut none false s1
      else
        let s2 := s1.emit [.repoLoadCommit cur.out]
        match env.loadCommit with
        | .error message => applyOfflineOut (some message) false s2
        | .ok currentTimestamp =>
          if packageTimestamp < currentTimestamp then
            applyOfflineOut none false
              (s2.emit [.errorOccurred (downgradeMessage currentTimestamp packageTimestamp)])
          else
            let a := ostree env.applyOffline (applyOfflineCommand packagePath) cur.ok
              updateStatusDefault
            let s3 := s2.emit
              (.statusStringChanged "Applying the update package..." :: a.events)
            if !a.ok then applyOfflineOut none false s3
            else
              match deltaSuperblock.csumStructure with
              | some message => applyOfflineOut (some message) false s3
              | none =>
                let toCsum := deltaSuperblock.toCsum
                let r := ostree env.reset (resetCommand toCsum) a.ok updateStatusDefault
                let s4 := s3.emit r.events
                if !r.ok then applyOfflineOut none false s4
                else
                  let d := deployCommit updateStatusDefault env.deploy toCsum s4
                  if !d.1 then applyOfflineOut none false d.2
                  else applyOfflineOut none true d.2

/-! ## Vocabulary of the statements -/

/-- An output line that `ostree` treats as an error report. -/
def isErrorLine (raw : String) : Bool := startsWith (trimmed raw) "error:"

/-- The two side-channel signals. -/
def Event.isSideChannel : Event → Bool
  | .errorOccurred _ => true
  | .statusStringChanged _ => true
  | _ => false

/-- Events that a run of `ostree` can append: the start of the process and the two
side-channel signals. -/
def Event.isProcessOutput : Event → Bool
  | .processStart _ => true
  | .errorOccurred _ => true
  | .statusStringChanged _ => true
  | _ => false

/-- Events appended to the trace between two states of one run. -/
def newEvents (s s' : State) : List Event := s'.trace.drop s.trace.length

/-- No status update in the list repeats an error line. -/
def statusClean (events : List Event) : Prop :=
  ∀ text, Event.statusStringChanged text ∈ events → startsWith text "error:" = false

/-- Events that one call of `deployCommit` appends to the trace. -/
def deployEvents (updateStatusDefault : Bool) (env : DeployEnv) (commit : String) :
    List Event :=
  (deployCommit updateStatusDefault env commit
    { lockHeld := false, deployments := [], trace := [] }).2.trace

/-- Events that `resetRollbackState` appends for a given in-memory deployment list. -/
def rollbackStateEvents (updateStatusDefault : Bool) (env : InfoEnv) :
    List Deployment → List Event
  | first :: candidate :: rest =>
    (info updateStatusDefault env .Rollback true candidate.csum).events ++
      [.rollbackChanged candidate.csum
        (info updateStatusDefault env .Rollback true candidate.csum).doc
        (first :: candidate :: rest).length]
  | _ => []

/-- Whether the lock is held after the given events, when it was `held` before them. -/
def lockAfter : Bool → List Event → Bool
  | held, [] => held
  | _, .sysrootLock true :: es => lockAfter true es
  | _, .sysrootUnlock :: es => lockAfter false es
  | held, _ :: es => lockAfter held es

/-- The run of `ostree rev-parse linux/qt` in `_applyOffline`. -/
def revParseRun (updateStatusDefault : Bool) (env : ApplyOfflineEnv) : OstreeResult :=
  ostree env.revParse "ostree rev-parse linux/qt" true updateStatusDefault

/-- The run of the `apply-offline` command in `_applyOffline`, entered with `ok` true. -/
def applyRun (updateStatusDefault : Bool) (env : ApplyOfflineEnv) (packagePath : String) :
    OstreeResult :=
  ostree env.applyOffline (applyOfflineCommand packagePath) true updateStatusDefault

/-- The run of the `reset` command in `_applyOffline`, entered with `ok` true. -/
def resetRun (updateStatusDefault : Bool) (env : ApplyOfflineEnv) (toCsum : String) :
    OstreeResult :=
  ostree env.reset (resetCommand toCsum) true updateStatusDefault

/-- Events that `_applyOffline` can append before its terminal signal. -/
def Event.isApplyStep : Event → Bool
  | .mappedFileNew _ => true
  | .repoLoadCommit _ => true
  | .repoReadCommit _ => true
  | .processStart _ => true
  | .errorOccurred _ => true
  | .statusStringChanged _ => true
  | .sysrootUnlock => true
  | _ => false

/-- Every step of the offline pipeline succeeds: the package maps, its commit payload is
valid and not older than the branch head, whose revision and commit are found, the
`apply-offline` command runs without an error, the checksum vector is valid, and the `reset`
command and the deploy step succeed. -/
def ApplyOfflineSucceeds (updateStatusDefault : Bool) (env : ApplyOfflineEnv)
    (packagePath : String) : Prop :=
  ∃ deltaSuperblock currentTimestamp,
    env.mappedFile = .ok deltaSuperblock ∧
    deltaSuperblock.commitStructure = none ∧
    (revParseRun updateStatusDefault env).ok = true ∧
    env.loadCommit = .ok currentTimestamp ∧
    currentTimestamp ≤ deltaSuperblock.commitTimestamp ∧
    (applyRun updateStatusDefault env packagePath).ok = true ∧
    deltaSuperblock.csumStructure = none ∧
    (resetRun updateStatusDefault env deltaSuperblock.toCsum).ok = true ∧
    ∀ st, (deployCommit updateStatusDefault env.deploy deltaSuperblock.toCsum st).1 = true

/-! ## Sample collaborators -/

/-- A command that runs to completion and prints nothing. -/
def quietRun : ProcessRun :=
  { started := true, timedOut := [], finished := true, lastLines := [], exitCode := 0,
    errorString := "" }

/-- Collaborators of `info` on a system without metadata. -/
def noInfo : InfoEnv :=
  { metadataFile := none, cat := quietRun, fromJson := fun text => .ok text }

/-- A worker that holds no lock and has not loaded the sysroot yet. -/
def idleState : State := { lockHeld := false, deployments := [], trace := [] }

/-- Collaborators of a rollback that loads the given list and writes successfully. -/
def rollbackEnvOf (onDisk : List Deployment) : RollbackEnv :=
  { lock := none, load := .ok onDisk, write := none, rollbackInfo := noInfo }

/-- Collaborators of a rollback whose lock acquisition fails. -/
def lockBusyEnv : RollbackEnv :=
  { lock := some "lock busy", load := .ok [⟨"A"⟩, ⟨"B"⟩], write := none,
    rollbackInfo := noInfo }

/-- Collaborators of a rollback whose state reload fails. -/
def reloadFailsEnv : RollbackEnv :=
  { lock := none, load := .error "no sysroot", write := none, rollbackInfo := noInfo }

/-- A command that prints a line that is no error report and exits with status 1. -/
def failingExitRun : ProcessRun :=
  { started := true, timedOut := [], finished := true,
    lastLines := ["fatal: repository is corrupted\n"], exitCode := 1, errorString := "" }

/-- A command that cannot be started. -/
def notStartedRun : ProcessRun :=
  { started := false, timedOut := [], finished := false, lastLines := [], exitCode := 0,
    errorString := "No such file or directory" }

/-- A command whose process fails during a wait, after one line was read. -/
def crashedRun : ProcessRun :=
  { started := true, timedOut := [["Receiving objects: 10%\n"]], finished := false,
    lastLines := [], exitCode := 0, errorString := "Process crashed" }

/-- A command that prints an error report and finishes. -/
def errorLineRun : ProcessRun :=
  { started := true, timedOut := [["Receiving objects: 10%\n"]], finished := true,
    lastLines := ["error: Remote \"qt-os\" not found\n"], exitCode := 1, errorString := "" }

/-- Collaborators of a deploy step that succeeds for a commit without a kargs file. -/
def plainDeploy : DeployEnv :=
  { readCommit := none, kargsFile := false, catKargs := quietRun, deploy := quietRun }

/-- Collaborators of an update in which every step succeeds. -/
def smoothUpdate : UpdateEnv :=
  { lock := none, pull := quietRun, deploy := plainDeploy, load := .ok [⟨"new"⟩, ⟨"old"⟩],
    rollbackInfo := noInfo }

/-- A superblock with a valid commit payload of the given timestamp and a valid checksum
vector. -/
def deltaOf (timestamp : Nat) : DeltaSuperblock :=
  { commitStructure := none, commitTimestamp := timestamp, csumStructure := none,
    toCsum := "f00d" }

/-- Collaborators of an offline update in which every command succeeds, for a package and a
branch head of the given timestamps. -/
def offlineEnv (packageTimestamp currentTimestamp : Nat) : ApplyOfflineEnv :=
  { mappedFile := .ok (deltaOf packageTimestamp),
    revParse := { quietRun with lastLines := ["c0ffee\n"] },
    loadCommit := .ok currentTimestamp, applyOffline := quietRun, reset := quietRun,
    deploy := plainDeploy }

/-- Collaborators of an offline update whose package has an invalid checksum vector. -/
def badCsumEnv : ApplyOfflineEnv :=
  { offlineEnv 100 100 with
    mappedFile := .ok { deltaOf 100 with csumStructure := some "Invalid checksum" } }

/-- Collaborators of an offline update whose package has an invalid checksum vector and is
refused by the `apply-offline` command itself. -/
def refusedCsumEnv : ApplyOfflineEnv :=
  { badCsumEnv with
    applyOffline := { quietRun with lastLines := ["error: Invalid checksum\n"], exitCode := 1 } }

/-- Collaborators of an initialization in which every step succeeds. -/
def smoothInitialize : InitializeEnv :=
  { lock := none, load := .ok [⟨"A"⟩, ⟨"B"⟩], booted := some ⟨"A"⟩,
    bootedInfo := { noInfo with metadataFile := some "\x7b\"version\":\"1.2\"\x7d" },
    revParse := { quietRun with lastLines := ["c0ffee\n"] }, remoteInfo := noInfo,
    rollbackInfo := noInfo }

/-! ## Lemmas on lists and traces -/

@[simp] theorem emit_trace (s : State) (es : List Event) : (s.emit es).trace = s.trace ++ es := rfl

@[simp] theorem emit_lockHeld (s : State) (es : List Event) : (s.emit es).lockHeld = s.lockHeld := rfl

@[simp] theorem emit_deployments (s : State) (es : List Event) :
    (s.emit es).deployments = s.deployments := rfl

theorem newEvents_append (s : State) (lock : Bool) (ds : List Deployment) (es : List Event) :
    newEvents s { lockHeld := lock, deployments := ds, trace := s.trace ++ es } = es := by
  simp [newEvents]

theorem split_unique {α : Type} (P : α → Prop) (x y : α) (hx : P y) :
    ∀ (front back pre post : List α), (∀ e ∈ front, ¬ P e) → (∀ e ∈ back, ¬ P e) →
      front ++ x :: back = pre ++ y :: post → pre = front := by
  intro front
  induction front with
  | nil =>
    intro back pre post _ hback h
    cases pre with
    | nil => rfl
    | cons p pre' =>
      simp only [List.nil_append, List.cons_append, List.cons.injEq] at h
      exact absurd hx (hback y (by rw [h.2]; simp))
  | cons a front ih =>
    intro back pre post hfront hback h
    cases pre with
    | nil =>
      simp only [List.cons_append, List.nil_append, List.cons.injEq] at h
      exact absurd (h.1 ▸ hx) (hfront a (by simp))
    | cons p pre' =>
      simp only [List.cons_append, List.cons.injEq] at h
      rw [h.1, ih back pre' post (fun e he => hfront e (by simp [he])) hback h.2]

theorem lockAfter_unlock (held : Bool) (es : List Event) :
    lockAfter held (es ++ [.sysrootUnlock]) = false := by
  induction es generalizing held with
  | nil => cases held <;> rfl
  | cons e es ih =>
    cases e <;> try (simp only [List.cons_append, lockAfter]; exact ih _)
    case sysrootLock acquired =>
      cases acquired <;> (simp only [List.cons_append, lockAfter]; exact ih _)

/-! ## Lemmas on `QString::arg` and the command lines -/

theorem digitChar_ne_percent (n : Nat) : Nat.digitChar n ≠ '%' := by
  rcases Nat.lt_or_ge n 16 with h | h
  · interval_cases n <;> decide
  · obtain ⟨k, rfl⟩ : ∃ k, n = k + 16 := ⟨n - 16, by omega⟩
    simp [Nat.digitChar]

theorem toDigitsCore_no_percent (fuel n : Nat) (ds : List Char) (h : ∀ c ∈ ds, c ≠ '%') :
    ∀ c ∈ Nat.toDigitsCore 10 fuel n ds, c ≠ '%' := by
  induction fuel generalizing n ds with
  | zero => simpa [Nat.toDigitsCore] using h
  | succ fuel ih =>
    have hcons : ∀ c ∈ Nat.digitChar (n % 10) :: ds, c ≠ '%' := by
      intro c hc
      rcases List.mem_cons.mp hc with h1 | h1
      · rw [h1]; exact digitChar_ne_percent _
      · exact h c h1
    unfold Nat.toDigitsCore
    by_cases h0 : n / 10 = 0
    · simpa [h0] using hcons
    · simp only [h0, ↓reduceIte]
      exact ih _ _ hcons

theorem toString_no_percent (n : Nat) : ∀ c ∈ (toString n).data, c ≠ '%' := by
  show ∀ c ∈ (Nat.toDigits 10 n), c ≠ '%'
  exact toDigitsCore_no_percent _ _ [] (by simp)

theorem findArgEscapes_literal (ds rest : List Char) (h : ∀ c ∈ ds, c ≠ '%') :
    findArgEscapes .idle (ds ++ rest) = ds.map .lit ++ findArgEscapes .idle rest := by
  induction ds with
  | nil => simp
  | cons d ds ih =>
    have hd : d ≠ '%' := h d (by simp)
    have := ih (fun c hc => h c (by simp [hc]))
    simp [findArgEscapes, hd, this]

theorem minEscape_literal (ds : List Char) (ps : List ArgPiece) :
    minEscape (ds.map .lit ++ ps) = minEscape ps := by
  induction ds with
  | nil => simp
  | cons d ds ih => simpa [minEscape] using ih

theorem replaceArgEscapes_literal (m : Nat) (a ds : List Char) (ps : List ArgPiece) :
    replaceArgEscapes m a (ds.map .lit ++ ps) = ds ++ replaceArgEscapes m a ps := by
  induction ds with
  | nil => simp
  | cons d ds ih => simpa [replaceArgEscapes] using ih

theorem downgradeMessage_eq (currentTimestamp packageTimestamp : Nat) :
    downgradeMessage currentTimestamp packageTimestamp =
      "Not allowed to downgrade - current timestamp: " ++ toString currentTimestamp ++
        ", package timestamp: " ++ toString packageTimestamp := by
  apply String.ext
  have h1 := findArgEscapes_literal (toString currentTimestamp).data
    ", package timestamp: %2".data (toString_no_percent currentTimestamp)
  simp [downgradeMessage, qarg, findArgEscapes, minEscape, replaceArgEscapes, digitValue] at h1 ⊢
  simp [h1, minEscape_literal, replaceArgEscapes_literal, minEscape, replaceArgEscapes]

theorem applyOfflineCommand_eq (path : String) :
    applyOfflineCommand path = "ostree static-delta apply-offline " ++ path := by
  apply String.ext
  simp [applyOfflineCommand, qarg, findArgEscapes, minEscape, replaceArgEscapes, digitValue]

/-- The pull command line of `_update`. -/
theorem pullCommand_eq (rev : String) :
    qarg "ostree pull qt-os:%1" rev = "ostree pull qt-os:" ++ rev := by
  apply String.ext
  simp [qarg, findArgEscapes, minEscape, replaceArgEscapes, digitValue]

/-! ## Lemmas on the command executor -/

theorem isErrorLine_nonempty (raw : String) (h : isErrorLine raw = true) :
    (trimmed raw).data.isEmpty = false := by
  unfold isErrorLine startsWith at h
  cases hd : (trimmed raw).data with
  | nil => rw [hd] at h; simp [List.isPrefixOf] at h
  | cons a t => rfl

theorem readLine_error (u : Bool) (acc : OstreeResult) (raw : String)
    (h : isErrorLine raw = true) :
    readLine u acc raw =
      { out := acc.out ++ parseErrorString (trimmed raw), ok := false,
        events := acc.events ++ [.errorOccurred (parseErrorString (trimmed raw))] } := by
  have hne := isErrorLine_nonempty raw h
  unfold isErrorLine at h
  simp [readLine, hne, h]

theorem readLine_ok (u : Bool) (acc : OstreeResult) (raw : String) :
    (readLine u acc raw).ok = (acc.ok && !isErrorLine raw) := by
  by_cases h : isErrorLine raw = true
  · rw [readLine_error u acc raw h]; simp [h]
  · have h' : startsWith (trimmed raw) "error:" = false := by
      simpa [isErrorLine] using h
    simp only [Bool.not_eq_true] at h
    unfold readLine
    by_cases he : (trimmed raw).data.isEmpty = true
    · simp [he, h]
    · simp [he, h', h]

theorem readLines_ok (u : Bool) (lines : List String) (acc : OstreeResult) :
    (readLines u acc lines).ok = (acc.ok && lines.all (fun raw => !isErrorLine raw)) := by
  induction lines generalizing acc with
  | nil => simp [readLines]
  | cons l ls ih =>
    have := ih (readLine u acc l)
    simp only [readLines, List.foldl_cons] at this ⊢
    rw [this, readLine_ok]
    simp [Bool.and_assoc]

theorem waitLoop_ok (p : ProcessRun) (c : String) (u : Bool) (polls : List (List String))
    (acc : OstreeResult) :
    (waitLoop p c u polls acc).ok =
      (p.finished && (acc.ok && (polls.flatten ++ p.lastLines).all (fun raw => !isErrorLine raw))) := by
  induction polls generalizing acc with
  | nil =>
    unfold waitLoop
    by_cases hf : p.finished = true
    · simp [hf, readLines_ok]
    · simp [hf]
  | cons l ls ih =>
    unfold waitLoop
    rw [ih, readLines_ok]
    simp [Bool.and_assoc]

theorem ostree_ok (p : ProcessRun) (c : String) (ok u : Bool) :
    (ostree p c ok u).ok =
      (p.started && (p.finished &&
        (ok && (p.timedOut.flatten ++ p.lastLines).all (fun raw => !isErrorLine raw)))) := by
  unfold ostree
  by_cases hs : p.started = true
  · simp [hs, waitLoop_ok]
  · simp [hs]

theorem readLine_events (u : Bool) (acc : OstreeResult) (raw : String) :
    ∃ extra, (readLine u acc raw).events = acc.events ++ extra ∧
      ∀ e ∈ extra, e.isSideChannel = true := by
  unfold readLine
  by_cases he : (trimmed raw).data.isEmpty = true
  · exact ⟨[], by simp [he]⟩
  · by_cases hs : startsWith (trimmed raw) "error:" = true
    · exact ⟨[.errorOccurred (parseErrorString (trimmed raw))], by simp [he, hs, Event.isSideChannel]⟩
    · cases u
      · exact ⟨[], by simp [he, hs]⟩
      · exact ⟨[.statusStringChanged (trimmed raw)], by simp [he, hs, Event.isSideChannel]⟩

theorem readLines_events (u : Bool) (lines : List String) (acc : OstreeResult) :
    ∃ extra, (readLines u acc lines).events = acc.events ++ extra ∧
      ∀ e ∈ extra, e.isSideChannel = true := by
  induction lines generalizing acc with
  | nil => exact ⟨[], by simp [readLines]⟩
  | cons l ls ih =>
    obtain ⟨x1, h1, hx1⟩ := readLine_events u acc l
    obtain ⟨x2, h2, hx2⟩ := ih (readLine u acc l)
    refine ⟨x1 ++ x2, ?_, ?_⟩
    · simp only [readLines, List.foldl_cons] at h2 ⊢
      rw [h2, h1, List.append_assoc]
    · intro e he
      rcases List.mem_append.mp he with h | h
      · exact hx1 e h
      · exact hx2 e h

theorem waitLoop_events (p : ProcessRun) (c : String) (u : Bool) (polls : List (List String))
    (acc : OstreeResult) :
    ∃ extra, (waitLoop p c u polls acc).events = acc.events ++ extra ∧
      ∀ e ∈ extra, e.isSideChannel = true := by
  induction polls generalizing acc with
  | nil =>
    unfold waitLoop
    by_cases hf : p.finished = true
    · simpa [hf] using readLines_events u p.lastLines acc
    · exact ⟨[.errorOccurred ("Process failed: " ++ c ++ " : " ++ p.errorString)],
        by simp [hf, Event.isSideChannel]⟩
  | cons l ls ih =>
    unfold waitLoop
    obtain ⟨x1, h1, hx1⟩ := readLines_events u l acc
    obtain ⟨x2, h2, hx2⟩ := ih (readLines u acc l)
    refine ⟨x1 ++ x2, ?_, ?_⟩
    · rw [h2, h1, List.append_assoc]
    · intro e he
      rcases List.mem_append.mp he with h | h
      · exact hx1 e h
      · exact hx2 e h

/-- A run of `ostree` logs the start of its command and then only side-channel signals. -/
theorem ostree_events (p : ProcessRun) (c : String) (ok u : Bool) :
    ∃ rest, (ostree p c ok u).events = .processStart c :: rest ∧
      ∀ e ∈ rest, e.isSideChannel = true := by
  unfold ostree
  by_cases hs : p.started = true
  · obtain ⟨x, hx, hall⟩ := waitLoop_events p c u p.timedOut
      { out := "", ok := ok, events := [.processStart c] }
    exact ⟨x, by simpa [hs] using hx, hall⟩
  · exact ⟨[.errorOccurred ("Failed to start: " ++ c ++ " : " ++ p.errorString)],
      by simp [hs, Event.isSideChannel]⟩

theorem ostree_events_output (p : ProcessRun) (c : String) (ok u : Bool) :
    ∀ e ∈ (ostree p c ok u).events, e.isProcessOutput = true := by
  obtain ⟨rest, h, hall⟩ := ostree_events p c ok u
  intro e he
  rw [h] at he
  rcases List.mem_cons.mp he with h1 | h1
  · subst h1; rfl
  · have := hall e h1
    cases e <;> simp_all [Event.isSideChannel, Event.isProcessOutput]

theorem processStart_mem_ostree (p : ProcessRun) (c c' : String) (ok u : Bool)
    (h : Event.processStart c' ∈ (ostree p c ok u).events) : c' = c := by
  obtain ⟨rest, hrest, hside⟩ := ostree_events p c ok u
  rw [hrest] at h
  rcases List.mem_cons.mp h with h1 | h1
  · exact Event.processStart.inj h1
  · have := hside _ h1
    simp [Event.isSideChannel] at this

theorem not_readCommit_of_output (e : Event) (h : e.isProcessOutput = true) :
    ¬ ∃ c, e = .repoReadCommit c := by
  rintro ⟨c, rfl⟩
  simp [Event.isProcessOutput] at h

theorem info_events_output (u : Bool) (env : InfoEnv) (t : QueryTarget) (ok : Bool)
    (rev : String) :
    ∀ e ∈ (info u env t ok rev).events, e.isProcessOutput = true := by
  intro e he
  unfold info at he
  have hr : ∀ e ∈ (match t with
      | .Booted => ({ out := env.metadataFile.getD "", ok := ok, events := [] } : OstreeResult)
      | .Remote => ostree env.cat (qarg "ostree cat %1 /usr/etc/qt-ota.json" rev) ok u
      | .Rollback => ostree env.cat (qarg "ostree cat %1 /usr/etc/qt-ota.json" rev) ok u).events,
      e.isProcessOutput = true := by
    cases t
    · simp
    · exact ostree_events_output _ _ _ _
    · exact ostree_events_output _ _ _ _
  simp only at he
  split at he
  · exact hr e he
  · split at he
    · exact hr e he
    · rcases List.mem_append.mp he with h | h
      · exact hr e h
      · simp at h; subst h; rfl

theorem waitLoop_exitCode (p : ProcessRun) (code : Int) (c : String) (u : Bool)
    (polls : List (List String)) (acc : OstreeResult) :
    waitLoop { p with exitCode := code } c u polls acc = waitLoop p c u polls acc := by
  induction polls generalizing acc with
  | nil => simp [waitLoop]
  | cons l ls ih => simp [waitLoop, ih]

theorem ostree_exitCode (p : ProcessRun) (code : Int) (c : String) (ok u : Bool) :
    ostree { p with exitCode := code } c ok u = ostree p c ok u := by
  simp [ostree, waitLoop_exitCode]

theorem readLine_statusClean (u : Bool) (acc : OstreeResult) (raw : String)
    (h : statusClean acc.events) : statusClean (readLine u acc raw).events := by
  unfold readLine
  by_cases he : (trimmed raw).data.isEmpty = true
  · simpa [he] using h
  · by_cases hs : startsWith (trimmed raw) "error:" = true
    · intro text hmem
      simp [he, hs] at hmem
      exact h text hmem
    · intro text hmem
      cases u
      · simp [he, hs] at hmem
        exact h text hmem
      · simp [he, hs] at hmem
        rcases hmem with hmem | hmem
        · exact h text hmem
        · subst hmem; simpa using hs

theorem readLines_statusClean (u : Bool) (lines : List String) (acc : OstreeResult)
    (h : statusClean acc.events) : statusClean (readLines u acc lines).events := by
  induction lines generalizing acc with
  | nil => simpa [readLines] using h
  | cons l ls ih =>
    have := ih (readLine u acc l) (readLine_statusClean u acc l h)
    simpa [readLines] using this

theorem waitLoop_statusClean (p : ProcessRun) (c : String) (u : Bool)
    (polls : List (List String)) (acc : OstreeResult) (h : statusClean acc.events) :
    statusClean (waitLoop p c u polls acc).events := by
  induction polls generalizing acc with
  | nil =>
    unfold waitLoop
    by_cases hf : p.finished = true
    · simpa [hf] using readLines_statusClean u p.lastLines acc h
    · intro text hmem
      simp [hf] at hmem
      exact h text hmem
  | cons l ls ih =>
    unfold waitLoop
    exact ih _ (readLines_statusClean u l acc h)

theorem ostree_statusClean (p : ProcessRun) (c : String) (ok u : Bool) :
    statusClean (ostree p c ok u).events := by
  unfold ostree
  by_cases hs : p.started = true
  · simp only [hs, Bool.not_true, Bool.false_eq_true, ↓reduceIte]
    apply waitLoop_statusClean
    intro text hmem
    simp at hmem
  · intro text hmem
    simp [hs] at hmem

theorem readLines_mono (u : Bool) (lines : List String) (acc : OstreeResult) (e : Event)
    (h : e ∈ acc.events) : e ∈ (readLines u acc lines).events := by
  obtain ⟨x, hx, _⟩ := readLines_events u lines acc
  rw [hx]; exact List.mem_append_left _ h

theorem waitLoop_mono (p : ProcessRun) (c : String) (u : Bool) (polls : List (List String))
    (acc : OstreeResult) (e : Event) (h : e ∈ acc.events) :
    e ∈ (waitLoop p c u polls acc).events := by
  obtain ⟨x, hx, _⟩ := waitLoop_events p c u polls acc
  rw [hx]; exact List.mem_append_left _ h

theorem readLines_reports (u : Bool) (lines : List String) (acc : OstreeResult) (raw : String)
    (hraw : raw ∈ lines) (herr : isErrorLine raw = true) :
    Event.errorOccurred (parseErrorString (trimmed raw)) ∈ (readLines u acc lines).events := by
  induction lines generalizing acc with
  | nil => simp at hraw
  | cons l ls ih =>
    simp only [readLines, List.foldl_cons]
    rcases List.mem_cons.mp hraw with h | h
    · subst h
      apply readLines_mono
      rw [readLine_error u acc raw herr]
      simp
    · exact ih (readLine u acc l) h

theorem waitLoop_reports (p : ProcessRun) (c : String) (u : Bool) (polls : List (List String))
    (acc : OstreeResult) (raw : String)
    (hraw : raw ∈ polls.flatten ++ (if p.finished then p.lastLines else []))
    (herr : isErrorLine raw = true) :
    Event.errorOccurred (parseErrorString (trimmed raw)) ∈ (waitLoop p c u polls acc).events := by
  induction polls generalizing acc with
  | nil =>
    unfold waitLoop
    by_cases hf : p.finished = true
    · simp only [hf, ↓reduceIte]
      simp [hf] at hraw
      exact readLines_reports u p.lastLines acc raw hraw herr
    · simp [hf] at hraw
  | cons l ls ih =>
    unfold waitLoop
    simp only [List.flatten_cons, List.append_assoc, List.mem_append] at hraw
    rcases hraw with h | h
    · exact waitLoop_mono _ _ _ _ _ _ (readLines_reports u l acc raw h herr)
    · exact ih _ (by simpa using h)

theorem ostree_reports (p : ProcessRun) (c : String) (ok u : Bool) (raw : String)
    (hs : p.started = true)
    (hraw : raw ∈ p.timedOut.flatten ++ (if p.finished then p.lastLines else []))
    (herr : isErrorLine raw = true) :
    Event.errorOccurred (parseErrorString (trimmed raw)) ∈ (ostree p c ok u).events := by
  unfold ostree
  simp only [hs, Bool.not_true, Bool.false_eq_true, ↓reduceIte]
  exact waitLoop_reports p c u p.timedOut _ raw hraw herr

/-! ## Lemmas on the deploy step and the bookkeeping -/

theorem deployCommit_snd (u : Bool) (env : DeployEnv) (c : String) (s : State) :
    (deployCommit u env c s).2 =
      { lockHeld := s.lockHeld && env.readCommit.isNone, deployments := s.deployments,
        trace := s.trace ++ deployEvents u env c } := by
  unfold deployEvents deployCommit
  cases hr : env.readCommit with
  | some message => simp [emitGError, multiprocessUnlock, State.emit]
  | none =>
    by_cases hk : env.kargsFile = true
    · by_cases hok : (ostree env.catKargs
          (qarg "ostree cat %1 /usr/lib/ostree-boot/kargs" c) true u).ok = true
      · simp [hk, hok, State.emit]
      · simp [hk, hok, State.emit]
    · simp [hk, State.emit]

theorem deployCommit_fst (u : Bool) (env : DeployEnv) (c : String) (s s' : State) :
    (deployCommit u env c s).1 = (deployCommit u env c s').1 := by
  unfold deployCommit
  cases hr : env.readCommit with
  | some message => simp
  | none =>
    by_cases hk : env.kargsFile = true
    · by_cases hok : (ostree env.catKargs
          (qarg "ostree cat %1 /usr/lib/ostree-boot/kargs" c) true u).ok = true
      · simp [hk, hok]
      · simp [hk, hok]
    · simp [hk]

theorem deployCommit_dichotomy (u : Bool) (env : DeployEnv) (c : String) :
    (∀ st, (deployCommit u env c st).1 = true) ∨ (∀ st, (deployCommit u env c st).1 = false) := by
  cases h : (deployCommit u env c { lockHeld := false, deployments := [], trace := [] }).1
  · exact Or.inr (fun st => by rw [deployCommit_fst u env c st, h])
  · exact Or.inl (fun st => by rw [deployCommit_fst u env c st, h])

theorem deployEvents_shape (u : Bool) (env : DeployEnv) (c : String) :
    ∃ rest, deployEvents u env c = .repoReadCommit c :: rest ∧
      ∀ e ∈ rest, e.isProcessOutput = true ∨ e = .sysrootUnlock := by
  unfold deployEvents deployCommit
  cases hr : env.readCommit with
  | some message =>
    exact ⟨[.errorOccurred message, .sysrootUnlock],
      by simp [emitGError, multiprocessUnlock, State.emit, Event.isProcessOutput]⟩
  | none =>
    have h1 := ostree_events_output env.catKargs
      (qarg "ostree cat %1 /usr/lib/ostree-boot/kargs" c) true u
    by_cases hk : env.kargsFile = true
    · by_cases hok : (ostree env.catKargs
          (qarg "ostree cat %1 /usr/lib/ostree-boot/kargs" c) true u).ok = true
      · refine ⟨_, by simp [hk, hok, State.emit]; rfl, ?_⟩
        intro e he
        simp only [List.mem_append, List.mem_cons] at he
        rcases he with he | he | he
        · exact Or.inl (h1 e he)
        · subst he; exact Or.inl rfl
        · exact Or.inl (ostree_events_output _ _ _ _ e he)
      · refine ⟨_, by simp [hk, hok, State.emit]; rfl, ?_⟩
        intro e he
        simp only [List.mem_append, List.mem_singleton] at he
        rcases he with he | he
        · exact Or.inl (h1 e he)
        · subst he; exact Or.inl rfl
    · refine ⟨_, by simp [hk, State.emit]; rfl, ?_⟩
      intro e he
      simp only [List.mem_cons] at he
      rcases he with he | he
      · subst he; exact Or.inl rfl
      · exact Or.inl (ostree_events_output _ _ _ _ e he)

theorem resetRollbackState_eq (u : Bool) (env : InfoEnv) (s : State) :
    resetRollbackState u env s = some (s.emit (rollbackStateEvents u env s.deployments)) := by
  unfold resetRollbackState rollbackIndex
  rcases hd : s.deployments with _ | ⟨a, _ | ⟨b, rest⟩⟩
  · simp [rollbackStateEvents, State.emit]
  · simp [rollbackStateEvents, State.emit]
  · have h2 : ¬ (rest.length + 1 + 1 < 2) := by omega
    have h1 : (1 : Int).toNat = 1 := rfl
    simp [rollbackStateEvents, h2, h1]

theorem rollbackStateEvents_output (u : Bool) (env : InfoEnv) (l : List Deployment) :
    ∀ e ∈ rollbackStateEvents u env l,
      e.isProcessOutput = true ∨ ∃ rev doc n, e = .rollbackChanged rev doc n := by
  intro e he
  rcases l with _ | ⟨a, _ | ⟨b, rest⟩⟩
  · simp [rollbackStateEvents] at he
  · simp [rollbackStateEvents] at he
  · simp only [rollbackStateEvents, List.mem_append, List.mem_singleton] at he
    rcases he with he | he
    · exact Or.inl (info_events_output _ _ _ _ _ e he)
    · exact Or.inr ⟨_, _, _, he⟩

/-! ## Lemmas on `_rollback`: one equation for each path -/

theorem newDeployments_fold (l : List Deployment) (index : Nat) (first : Deployment) (n : Nat)
    (hn : n ≤ l.length) :
    (List.range n).foldlM
      (fun acc i => if i = index then some acc else (l[i]?).map (fun d => acc ++ [d]))
      [first] = some (first :: (l.take n).eraseIdx index) := by
  induction n with
  | zero => simp
  | succ n ih =>
    have hlt : n < l.length := hn
    rw [List.range_succ, List.foldlM_append, ih (Nat.le_of_lt hlt)]
    have htake : l.take (n + 1) = l.take n ++ [l[n]] := by
      rw [List.take_succ, List.getElem?_eq_getElem hlt]; rfl
    have hlen : (l.take n).length = n := by simp [Nat.le_of_lt hlt]
    by_cases hi : n = index
    · subst hi
      rw [htake, List.eraseIdx_append_of_length_le (by simp)]
      simp [hlen, List.eraseIdx_of_length_le]
    · rw [htake]
      rcases Nat.lt_or_gt_of_ne hi with h | h
      · rw [List.eraseIdx_of_length_le (by simp; omega),
          List.eraseIdx_of_length_le (by simp; omega)]
        simp [hi, List.getElem?_eq_getElem hlt]
      · rw [List.eraseIdx_append_of_lt_length (by simp; omega)]
        simp [hi, List.getElem?_eq_getElem hlt]

theorem newDeployments_one (a b : Deployment) (rest : List Deployment) :
    newDeployments (a :: b :: rest) 1 = some (b :: a :: rest) := by
  unfold newDeployments
  simp only [List.getElem?_cons_succ, List.getElem?_cons_zero, Option.bind_eq_bind,
    Option.some_bind]
  rw [newDeployments_fold (a :: b :: rest) 1 b _ (Nat.le_refl _)]
  simp

theorem rollback_lock_failed (u : Bool) (env : RollbackEnv) (s : State) (message : String)
    (hlock : env.lock = some message) :
    _rollback u env s = some
      { lockHeld := false, deployments := s.deployments,
        trace := s.trace ++ [.sysrootLock false, .errorOccurred message, .sysrootUnlock] } := by
  simp [_rollback, multiprocessLock, emitGError, hlock, multiprocessUnlock, State.emit]

theorem rollback_load_failed (u : Bool) (env : RollbackEnv) (s : State) (message : String)
    (hlock : env.lock = none) (hload : env.load = .error message) :
    _rollback u env s = some
      { lockHeld := false, deployments := s.deployments,
        trace := s.trace ++
          [.sysrootLock true, .sysrootLoad, .errorOccurred message, .sysrootUnlock] } := by
  simp [_rollback, multiprocessLock, emitGError, sysrootLoad, hlock, hload, multiprocessUnlock,
    State.emit]

theorem rollback_too_few (u : Bool) (env : RollbackEnv) (s : State) (l : List Deployment)
    (hlock : env.lock = none) (hload : env.load = .ok l) (hlen : l.length < 2) :
    _rollback u env s = some
      { lockHeld := false, deployments := l,
        trace := s.trace ++
          [.sysrootLock true, .sysrootLoad,
           .errorOccurred "At least 2 system versions required for rollback",
           .rollbackFinished "" false, .sysrootUnlock] } := by
  simp [_rollback, multiprocessLock, emitGError, sysrootLoad, hlock, hload, rollbackIndex, hlen,
    emitRollbackFailed, multiprocessUnlock, State.emit]

theorem rollback_write_failed (u : Bool) (env : RollbackEnv) (s : State)
    (a b : Deployment) (rest : List Deployment) (message : String)
    (hlock : env.lock = none) (hload : env.load = .ok (a :: b :: rest))
    (hwrite : env.write = some message) :
    _rollback u env s = some
      { lockHeld := false, deployments := a :: b :: rest,
        trace := s.trace ++
          [.sysrootLock true, .sysrootLoad, .sysrootWriteDeployments (b :: a :: rest),
           .errorOccurred message, .sysrootUnlock,
           .errorOccurred "Failed to update bootloader configuration",
           .rollbackFinished "" false, .sysrootUnlock] } := by
  have h2 : ¬ (rest.length + 1 + 1 < 2) := by omega
  have h1 : (1 : Int).toNat = 1 := rfl
  simp [_rollback, multiprocessLock, emitGError, sysrootLoad, hlock, hload, hwrite,
    rollbackIndex, h2, h1, newDeployments_one, emitRollbackFailed, multiprocessUnlock]

theorem rollback_written (u : Bool) (env : RollbackEnv) (s : State)
    (a b : Deployment) (rest : List Deployment)
    (hlock : env.lock = none) (hload : env.load = .ok (a :: b :: rest))
    (hwrite : env.write = none) :
    _rollback u env s = some
      { lockHeld := false, deployments := b :: a :: rest,
        trace := s.trace ++
          ([.sysrootLock true, .sysrootLoad, .sysrootWriteDeployments (b :: a :: rest)] ++
           (info u env.rollbackInfo .Rollback true a.csum).events ++
           [.rollbackChanged a.csum (info u env.rollbackInfo .Rollback true a.csum).doc
              (rest.length + 2),
            .rollbackFinished b.csum true, .sysrootUnlock]) } := by
  have h2 : ¬ (rest.length + 1 + 1 < 2) := by omega
  have h1 : (1 : Int).toNat = 1 := rfl
  simp [_rollback, multiprocessLock, emitGError, sysrootLoad, hlock, hload, hwrite,
    rollbackIndex, h2, h1, newDeployments_one, resetRollbackState, defaultRevision,
    multiprocessUnlock]

theorem rollback_lock_released (u : Bool) (env : RollbackEnv) (s : State) :
    ∃ s', _rollback u env s = some s' ∧ s'.lockHeld = false := by
  cases hlock : env.lock with
  | some message => exact ⟨_, rollback_lock_failed u env s message hlock, rfl⟩
  | none =>
    cases hload : env.load with
    | error message => exact ⟨_, rollback_load_failed u env s message hlock hload, rfl⟩
    | ok l =>
      rcases l with _ | ⟨a, _ | ⟨b, rest⟩⟩
      · exact ⟨_, rollback_too_few u env s [] hlock hload (by simp), rfl⟩
      · exact ⟨_, rollback_too_few u env s [a] hlock hload (by simp), rfl⟩
      · cases hwrite : env.write with
        | some message =>
          exact ⟨_, rollback_write_failed u env s a b rest message hlock hload hwrite, rfl⟩
        | none => exact ⟨_, rollback_written u env s a b rest hlock hload hwrite, rfl⟩

/-! ## Lemmas on `_update`: one equation for each path -/

theorem update_lock_failed (u : Bool) (env : UpdateEnv) (rev : String) (s : State)
    (message : String) (hlock : env.lock = some message) :
    _update u env rev s = some
      { lockHeld := false, deployments := s.deployments,
        trace := s.trace ++ [.sysrootLock false, .errorOccurred message, .sysrootUnlock] } := by
  simp [_update, multiprocessLock, emitGError, hlock, multiprocessUnlock, State.emit]

theorem update_pull_failed (u : Bool) (env : UpdateEnv) (rev : String) (s : State)
    (hlock : env.lock = none)
    (hpull : (ostree env.pull (qarg "ostree pull qt-os:%1" rev) true true).ok = false) :
    _update u env rev s = some
      { lockHeld := false, deployments := s.deployments,
        trace := s.trace ++
          (.sysrootLock true :: .statusStringChanged "Checking for missing objects..." ::
            ((ostree env.pull (qarg "ostree pull qt-os:%1" rev) true true).events ++
              [.sysrootUnlock, .updateFinished "" false])) } := by
  simp [_update, multiprocessLock, emitGError, hlock, hpull, multiprocessUnlock, State.emit]

theorem update_deploy_failed (u : Bool) (env : UpdateEnv) (rev : String) (s : State)
    (hlock : env.lock = none)
    (hpull : (ostree env.pull (qarg "ostree pull qt-os:%1" rev) true true).ok = true)
    (hdeploy : ∀ st, (deployCommit u env.deploy rev st).1 = false) :
    _update u env rev s = some
      { lockHeld := false, deployments := s.deployments,
        trace := s.trace ++
          (.sysrootLock true :: .statusStringChanged "Checking for missing objects..." ::
            ((ostree env.pull (qarg "ostree pull qt-os:%1" rev) true true).events ++
              .sysrootUnlock :: (deployEvents u env.deploy rev ++
                [.updateFinished "" false]))) } := by
  simp [_update, multiprocessLock, emitGError, hlock, hpull, hdeploy, multiprocessUnlock,
    State.emit, deployCommit_snd]

theorem update_load_failed (u : Bool) (env : UpdateEnv) (rev : String) (s : State)
    (message : String) (hlock : env.lock = none)
    (hpull : (ostree env.pull (qarg "ostree pull qt-os:%1" rev) true true).ok = true)
    (hdeploy : ∀ st, (deployCommit u env.deploy rev st).1 = true)
    (hload : env.load = .error message) :
    _update u env rev s = some
      { lockHeld := false, deployments := s.deployments,
        trace := s.trace ++
          (.sysrootLock true :: .statusStringChanged "Checking for missing objects..." ::
            ((ostree env.pull (qarg "ostree pull qt-os:%1" rev) true true).events ++
              .sysrootUnlock :: (deployEvents u env.deploy rev ++
                [.sysrootLoad, .errorOccurred message, .sysrootUnlock]))) } := by
  simp [_update, multiprocessLock, emitGError, hlock, hpull, hdeploy, hload, sysrootLoad,
    multiprocessUnlock, State.emit, deployCommit_snd]

theorem update_done (u : Bool) (env : UpdateEnv) (rev : String) (s : State)
    (l : List Deployment) (hlock : env.lock = none)
    (hpull : (ostree env.pull (qarg "ostree pull qt-os:%1" rev) true true).ok = true)
    (hdeploy : ∀ st, (deployCommit u env.deploy rev st).1 = true)
    (hload : env.load = .ok l) :
    _update u env rev s =
      (l[0]?).map (fun first =>
        { lockHeld := false, deployments := l,
          trace := s.trace ++
            (.sysrootLock true :: .statusStringChanged "Checking for missing objects..." ::
              ((ostree env.pull (qarg "ostree pull qt-os:%1" rev) true true).events ++
                .sysrootUnlock :: (deployEvents u env.deploy rev ++
                  .sysrootLoad :: (rollbackStateEvents u env.rollbackInfo l ++
                    [.updateFinished first.csum true])))) }) := by
  simp [_update, multiprocessLock, emitGError, hlock, hpull, hdeploy, hload, sysrootLoad,
    multiprocessUnlock, State.emit, deployCommit_snd, resetRollbackState_eq, defaultRevision]
  cases l <;> simp

theorem update_returns (u : Bool) (env : UpdateEnv) (rev : String) (s : State)
    (hne : ∀ l, env.load = .ok l → l ≠ []) : (_update u env rev s).isSome = true := by
  cases hlock : env.lock with
  | some message => rw [update_lock_failed u env rev s message hlock]; rfl
  | none =>
    by_cases hpull : (ostree env.pull (qarg "ostree pull qt-os:%1" rev) true true).ok = true
    · rcases deployCommit_dichotomy u env.deploy rev with hdeploy | hdeploy
      · cases hload : env.load with
        | error message =>
          rw [update_load_failed u env rev s message hlock hpull hdeploy hload]; rfl
        | ok l =>
          rw [update_done u env rev s l hlock hpull hdeploy hload]
          cases l with
          | nil => exact absurd rfl (hne [] hload)
          | cons d rest => simp
      · rw [update_deploy_failed u env rev s hlock hpull hdeploy]; rfl
    · simp only [Bool.not_eq_true] at hpull
      rw [update_pull_failed u env rev s hlock hpull]; rfl

theorem update_lock_released (u : Bool) (env : UpdateEnv) (rev : String) (s s' : State)
    (h : _update u env rev s = some s') : s'.lockHeld = false := by
  cases hlock : env.lock with
  | some message =>
    rw [update_lock_failed u env rev s message hlock] at h
    cases h; rfl
  | none =>
    by_cases hpull : (ostree env.pull (qarg "ostree pull qt-os:%1" rev) true true).ok = true
    · rcases deployCommit_dichotomy u env.deploy rev with hdeploy | hdeploy
      · cases hload : env.load with
        | error message =>
          rw [update_load_failed u env rev s message hlock hpull hdeploy hload] at h
          cases h; rfl
        | ok l =>
          rw [update_done u env rev s l hlock hpull hdeploy hload] at h
          cases hl : l[0]? with
          | none => rw [hl] at h; simp at h
          | some first =>
            rw [hl] at h
            simp only [Option.map_some', Option.some.injEq] at h
            rw [← h]
      · rw [update_deploy_failed u env rev s hlock hpull hdeploy] at h
        cases h; rfl
    · simp only [Bool.not_eq_true] at hpull
      rw [update_pull_failed u env rev s hlock hpull] at h
      cases h; rfl

/-- Before the deploy step of `_update` the last event is the release of the lock. -/
theorem update_unlock_before_deploy (u : Bool) (env : UpdateEnv) (rev : String) (s s' : State)
    (hrun : _update u env rev s = some s') (pre post : List Event) (c : String)
    (hsplit : newEvents s s' = pre ++ .repoReadCommit c :: post) :
    pre = .sysrootLock true :: .statusStringChanged "Checking for missing objects..." ::
      ((ostree env.pull (qarg "ostree pull qt-os:%1" rev) true true).events ++
        [.sysrootUnlock]) := by
  have hmem : Event.repoReadCommit c ∈ newEvents s s' := by rw [hsplit]; simp
  have hpullOut := ostree_events_output env.pull (qarg "ostree pull qt-os:%1" rev) true true
  cases hlock : env.lock with
  | some message =>
    rw [update_lock_failed u env rev s message hlock] at hrun
    cases hrun
    rw [newEvents_append] at hmem
    simp at hmem
  | none =>
    by_cases hpull : (ostree env.pull (qarg "ostree pull qt-os:%1" rev) true true).ok = true
    · obtain ⟨rest, hrest, hrestOut⟩ := deployEvents_shape u env.deploy rev
      have hfront : ∀ e ∈ Event.sysrootLock true ::
          Event.statusStringChanged "Checking for missing objects..." ::
            ((ostree env.pull (qarg "ostree pull qt-os:%1" rev) true true).events ++
              [Event.sysrootUnlock]), ¬ ∃ c, e = Event.repoReadCommit c := by
        intro e he
        simp only [List.mem_cons, List.mem_append, List.mem_singleton, List.not_mem_nil,
          or_false] at he
        rcases he with he | he | he | he
        · subst he; simp
        · subst he; simp
        · exact not_readCommit_of_output e (hpullOut e he)
        · subst he; simp
      have hrestNot : ∀ e ∈ rest, ¬ ∃ c, e = Event.repoReadCommit c := by
        intro e he
        rcases hrestOut e he with h | h
        · exact not_readCommit_of_output e h
        · subst h; simp
      have key : ∀ tail : List Event, (∀ e ∈ tail, ¬ ∃ c, e = Event.repoReadCommit c) →
          newEvents s s' = (Event.sysrootLock true ::
            Event.statusStringChanged "Checking for missing objects..." ::
              ((ostree env.pull (qarg "ostree pull qt-os:%1" rev) true true).events ++
                [Event.sysrootUnlock])) ++ Event.repoReadCommit rev :: (rest ++ tail) →
          pre = Event.sysrootLock true ::
            Event.statusStringChanged "Checking for missing objects..." ::
              ((ostree env.pull (qarg "ostree pull qt-os:%1" rev) true true).events ++
                [Event.sysrootUnlock]) := by
        intro tail htail hnew
        rw [hsplit] at hnew
        refine split_unique (fun e => ∃ c, e = Event.repoReadCommit c) _ _ ⟨c, rfl⟩ _
          (rest ++ tail) pre post hfront ?_ hnew.symm
        intro e he
        rcases List.mem_append.mp he with h | h
        · exact hrestNot e h
        · exact htail e h
      rcases deployCommit_dichotomy u env.deploy rev with hdeploy | hdeploy
      · cases hload : env.load with
        | error message =>
          rw [update_load_failed u env rev s message hlock hpull hdeploy hload] at hrun
          cases hrun
          apply key [.sysrootLoad, .errorOccurred message, .sysrootUnlock] (by simp)
          rw [newEvents_append, hrest]; simp
        | ok l =>
          rw [update_done u env rev s l hlock hpull hdeploy hload] at hrun
          cases hl : l[0]? with
          | none => rw [hl] at hrun; simp at hrun
          | some first =>
            rw [hl] at hrun
            simp only [Option.map_some', Option.some.injEq] at hrun
            subst hrun
            apply key (.sysrootLoad :: (rollbackStateEvents u env.rollbackInfo l ++
              [.updateFinished first.csum true]))
            · intro e he
              simp only [List.mem_cons, List.mem_append, List.mem_singleton, List.not_mem_nil,
                or_false] at he
              rcases he with he | he | he
              · subst he; simp
              · rcases rollbackStateEvents_output u env.rollbackInfo l e he with h | ⟨_, _, _, h⟩
                · exact not_readCommit_of_output e h
                · subst h; simp
              · subst he; simp
            · rw [newEvents_append, hrest]; simp
      · rw [update_deploy_failed u env rev s hlock hpull hdeploy] at hrun
        cases hrun
        apply key [.updateFinished "" false] (by simp)
        rw [newEvents_append, hrest]; simp
    · simp only [Bool.not_eq_true] at hpull
      rw [update_pull_failed u env rev s hlock hpull] at hrun
      cases hrun
      rw [newEvents_append] at hmem
      simp only [List.mem_cons, List.mem_append, List.mem_singleton, reduceCtorEq,
        List.not_mem_nil, or_false, false_or] at hmem
      exact absurd ⟨c, rfl⟩ (not_readCommit_of_output _ (hpullOut _ hmem))

/-! ## Lemmas on `_applyOffline`: one equation for each place where the pipeline ends -/

theorem applyOffline_map_failed (u : Bool) (env : ApplyOfflineEnv) (path : String) (s : State)
    (message : String) (hmap : env.mappedFile = .error message) :
    _applyOffline u env path s =
      { lockHeld := false, deployments := s.deployments,
        trace := s.trace ++ [.mappedFileNew path, .errorOccurred message, .sysrootUnlock,
          .applyOfflineFinished false] } := by
  simp [_applyOffline, hmap, applyOfflineOut, emitGError, multiprocessUnlock, State.emit]

theorem applyOffline_commit_invalid (u : Bool) (env : ApplyOfflineEnv) (path : String)
    (s : State) (sb : DeltaSuperblock) (message : String) (hmap : env.mappedFile = .ok sb)
    (hcommit : sb.commitStructure = some message) :
    _applyOffline u env path s =
      { lockHeld := false, deployments := s.deployments,
        trace := s.trace ++ [.mappedFileNew path, .errorOccurred message, .sysrootUnlock,
          .applyOfflineFinished false] } := by
  simp [_applyOffline, hmap, hcommit, applyOfflineOut, emitGError, multiprocessUnlock,
    State.emit]

theorem applyOffline_revParse_failed (u : Bool) (env : ApplyOfflineEnv) (path : String)
    (s : State) (sb : DeltaSuperblock) (hmap : env.mappedFile = .ok sb)
    (hcommit : sb.commitStructure = none) (hrev : (revParseRun u env).ok = false) :
    _applyOffline u env path s =
      { lockHeld := s.lockHeld, deployments := s.deployments,
        trace := s.trace ++ (.mappedFileNew path :: ((revParseRun u env).events ++
          [.applyOfflineFinished false])) } := by
  unfold revParseRun at hrev
  simp [_applyOffline, hmap, hcommit, hrev, applyOfflineOut, emitGError, State.emit,
    revParseRun]

theorem applyOffline_loadCommit_failed (u : Bool) (env : ApplyOfflineEnv) (path : String)
    (s : State) (sb : DeltaSuperblock) (message : String) (hmap : env.mappedFile = .ok sb)
    (hcommit : sb.commitStructure = none) (hrev : (revParseRun u env).ok = true)
    (hload : env.loadCommit = .error message) :
    _applyOffline u env path s =
      { lockHeld := false, deployments := s.deployments,
        trace := s.trace ++ (.mappedFileNew path :: ((revParseRun u env).events ++
          [.repoLoadCommit (revParseRun u env).out, .errorOccurred message, .sysrootUnlock,
           .applyOfflineFinished false])) } := by
  unfold revParseRun at hrev
  simp [_applyOffline, hmap, hcommit, hrev, hload, applyOfflineOut, emitGError,
    multiprocessUnlock, State.emit, revParseRun]

theorem applyOffline_downgrade (u : Bool) (env : ApplyOfflineEnv) (path : String)
    (s : State) (sb : DeltaSuperblock) (cur : Nat) (hmap : env.mappedFile = .ok sb)
    (hcommit : sb.commitStructure = none) (hrev : (revParseRun u env).ok = true)
    (hload : env.loadCommit = .ok cur) (hlt : sb.commitTimestamp < cur) :
    _applyOffline u env path s =
      { lockHeld := s.lockHeld, deployments := s.deployments,
        trace := s.trace ++ (.mappedFileNew path :: ((revParseRun u env).events ++
          [.repoLoadCommit (revParseRun u env).out,
           .errorOccurred (downgradeMessage cur sb.commitTimestamp),
           .applyOfflineFinished false])) } := by
  unfold revParseRun at hrev
  simp [_applyOffline, hmap, hcommit, hrev, hload, hlt, applyOfflineOut, emitGError,
    State.emit, revParseRun]

theorem applyOffline_apply_failed (u : Bool) (env : ApplyOfflineEnv) (path : String)
    (s : State) (sb : DeltaSuperblock) (cur : Nat) (hmap : env.mappedFile = .ok sb)
    (hcommit : sb.commitStructure = none) (hrev : (revParseRun u env).ok = true)
    (hload : env.loadCommit = .ok cur) (hge : cur ≤ sb.commitTimestamp)
    (happly : (applyRun u env path).ok = false) :
    _applyOffline u env path s =
      { lockHeld := s.lockHeld, deployments := s.deployments,
        trace := s.trace ++ (.mappedFileNew path :: ((revParseRun u env).events ++
          .repoLoadCommit (revParseRun u env).out ::
          .statusStringChanged "Applying the update package..." ::
          ((applyRun u env path).events ++ [.applyOfflineFinished false]))) } := by
  unfold revParseRun at hrev
  unfold applyRun at happly
  have hnlt : ¬ sb.commitTimestamp < cur := by omega
  simp [_applyOffline, hmap, hcommit, hrev, hload, hnlt, happly, applyOfflineOut, emitGError,
    State.emit, revParseRun, applyRun]

theorem applyOffline_csum_invalid (u : Bool) (env : ApplyOfflineEnv) (path : String)
    (s : State) (sb : DeltaSuperblock) (cur : Nat) (message : String)
    (hmap : env.mappedFile = .ok sb)
    (hcommit : sb.commitStructure = none) (hrev : (revParseRun u env).ok = true)
    (hload : env.loadCommit = .ok cur) (hge : cur ≤ sb.commitTimestamp)
    (happly : (applyRun u env path).ok = true) (hcsum : sb.csumStructure = some message) :
    _applyOffline u env path s =
      { lockHeld := false, deployments := s.deployments,
        trace := s.trace ++ (.mappedFileNew path :: ((revParseRun u env).events ++
          .repoLoadCommit (revParseRun u env).out ::
          .statusStringChanged "Applying the update package..." ::
          ((applyRun u env path).events ++
            [.errorOccurred message, .sysrootUnlock, .applyOfflineFinished false]))) } := by
  unfold revParseRun at hrev
  unfold applyRun at happly
  have hnlt : ¬ sb.commitTimestamp < cur := by omega
  simp [_applyOffline, hmap, hcommit, hrev, hload, hnlt, happly, hcsum, applyOfflineOut,
    emitGError, multiprocessUnlock, State.emit, revParseRun, applyRun]

theorem applyOffline_reset_failed (u : Bool) (env : ApplyOfflineEnv) (path : String)
    (s : State) (sb : DeltaSuperblock) (cur : Nat) (hmap : env.mappedFile = .ok sb)
    (hcommit : sb.commitStructure = none) (hrev : (revParseRun u env).ok = true)
    (hload : env.loadCommit = .ok cur) (hge : cur ≤ sb.commitTimestamp)
    (happly : (applyRun u env path).ok = true) (hcsum : sb.csumStructure = none)
    (hreset : (resetRun u env sb.toCsum).ok = false) :
    _applyOffline u env path s =
      { lockHeld := s.lockHeld, deployments := s.deployments,
        trace := s.trace ++ (.mappedFileNew path :: ((revParseRun u env).events ++
          .repoLoadCommit (revParseRun u env).out ::
          .statusStringChanged "Applying the update package..." ::
          ((applyRun u env path).events ++ ((resetRun u env sb.toCsum).events ++
            [.applyOfflineFinished false])))) } := by
  unfold revParseRun at hrev
  unfold applyRun at happly
  unfold resetRun at hreset
  have hnlt : ¬ sb.commitTimestamp < cur := by omega
  simp [_applyOffline, hmap, hcommit, hrev, hload, hnlt, happly, hcsum, hreset,
    applyOfflineOut, emitGError, State.emit, revParseRun, applyRun, resetRun]

theorem applyOffline_deploy (u : Bool) (env : ApplyOfflineEnv) (path : String)
    (s : State) (sb : DeltaSuperblock) (cur : Nat) (deployed : Bool)
    (hmap : env.mappedFile = .ok sb)
    (hcommit : sb.commitStructure = none) (hrev : (revParseRun u env).ok = true)
    (hload : env.loadCommit = .ok cur) (hge : cur ≤ sb.commitTimestamp)
    (happly : (applyRun u env path).ok = true) (hcsum : sb.csumStructure = none)
    (hreset : (resetRun u env sb.toCsum).ok = true)
    (hdeploy : ∀ st, (deployCommit u env.deploy sb.toCsum st).1 = deployed) :
    _applyOffline u env path s =
      { lockHeld := s.lockHeld && env.deploy.readCommit.isNone, deployments := s.deployments,
        trace := s.trace ++ (.mappedFileNew path :: ((revParseRun u env).events ++
          .repoLoadCommit (revParseRun u env).out ::
          .statusStringChanged "Applying the update package..." ::
          ((applyRun u env path).events ++ ((resetRun u env sb.toCsum).events ++
            (deployEvents u env.deploy sb.toCsum ++ [.applyOfflineFinished deployed]))))) } := by
  unfold revParseRun at hrev
  unfold applyRun at happly
  unfold resetRun at hreset
  have hnlt : ¬ sb.commitTimestamp < cur := by omega
  cases deployed <;>
  simp [_applyOffline, hmap, hcommit, hrev, hload, hnlt, happly, hcsum, hreset, hdeploy,
    applyOfflineOut, emitGError, State.emit, revParseRun, applyRun, resetRun, deployCommit_snd]

theorem ostree_events_applyStep (p : ProcessRun) (c : String) (ok u : Bool) :
    ∀ e ∈ (ostree p c ok u).events, e.isApplyStep = true := by
  intro e he
  have := ostree_events_output p c ok u e he
  cases e <;> simp_all [Event.isProcessOutput, Event.isApplyStep]

theorem deployEvents_applyStep (u : Bool) (env : DeployEnv) (c : String) :
    ∀ e ∈ deployEvents u env c, e.isApplyStep = true := by
  obtain ⟨rest, hrest, hout⟩ := deployEvents_shape u env c
  intro e he
  rw [hrest] at he
  rcases List.mem_cons.mp he with h | h
  · subst h; rfl
  · rcases hout e h with h1 | h1
    · cases e <;> simp_all [Event.isProcessOutput, Event.isApplyStep]
    · subst h1; rfl

/-- Every run of `_applyOffline` appends steps of the pipeline and then exactly one terminal
signal, which carries `true` only if every step succeeded; the run never takes the lock. -/
theorem applyOffline_shape (u : Bool) (env : ApplyOfflineEnv) (path : String) (s : State) :
    ∃ body success,
      newEvents s (_applyOffline u env path s) = body ++ [.applyOfflineFinished success] ∧
      (∀ e ∈ body, e.isApplyStep = true) ∧
      (success = true → ApplyOfflineSucceeds u env path) ∧
      ((_applyOffline u env path s).lockHeld = true → s.lockHeld = true) := by
  have hrevE := ostree_events_applyStep env.revParse "ostree rev-parse linux/qt" true u
  have happE := ostree_events_applyStep env.applyOffline (applyOfflineCommand path) true u
  cases hmap : env.mappedFile with
  | error message =>
    refine ⟨[.mappedFileNew path, .errorOccurred message, .sysrootUnlock], false, ?_, ?_, ?_, ?_⟩
    · rw [applyOffline_map_failed u env path s message hmap, newEvents_append]; rfl
    · simp [Event.isApplyStep]
    · simp
    · rw [applyOffline_map_failed u env path s message hmap]; simp
  | ok sb =>
    cases hcommit : sb.commitStructure with
    | some message =>
      refine ⟨[.mappedFileNew path, .errorOccurred message, .sysrootUnlock], false,
        ?_, ?_, ?_, ?_⟩
      · rw [applyOffline_commit_invalid u env path s sb message hmap hcommit, newEvents_append]
        rfl
      · simp [Event.isApplyStep]
      · simp
      · rw [applyOffline_commit_invalid u env path s sb message hmap hcommit]; simp
    | none =>
      cases hrev : (revParseRun u env).ok with
      | false =>
        refine ⟨.mappedFileNew path :: (revParseRun u env).events, false, ?_, ?_, ?_, ?_⟩
        · rw [applyOffline_revParse_failed u env path s sb hmap hcommit hrev, newEvents_append]
          simp
        · intro e he
          rcases List.mem_cons.mp he with h | h
          · subst h; rfl
          · exact hrevE e h
        · simp
        · rw [applyOffline_revParse_failed u env path s sb hmap hcommit hrev]; simp
      | true =>
        cases hload : env.loadCommit with
        | error message =>
          refine ⟨.mappedFileNew path :: ((revParseRun u env).events ++
            [.repoLoadCommit (revParseRun u env).out, .errorOccurred message, .sysrootUnlock]),
            false, ?_, ?_, ?_, ?_⟩
          · rw [applyOffline_loadCommit_failed u env path s sb message hmap hcommit hrev hload,
              newEvents_append]
            simp
          · intro e he
            simp only [List.mem_cons, List.mem_append, List.not_mem_nil, or_false] at he
            rcases he with h | h | h | h | h
            · subst h; rfl
            · exact hrevE e h
            · subst h; rfl
            · subst h; rfl
            · subst h; rfl
          · simp
          · rw [applyOffline_loadCommit_failed u env path s sb message hmap hcommit hrev hload]
            simp
        | ok cur =>
          by_cases hlt : sb.commitTimestamp < cur
          · refine ⟨.mappedFileNew path :: ((revParseRun u env).events ++
              [.repoLoadCommit (revParseRun u env).out,
               .errorOccurred (downgradeMessage cur sb.commitTimestamp)]), false,
              ?_, ?_, ?_, ?_⟩
            · rw [applyOffline_downgrade u env path s sb cur hmap hcommit hrev hload hlt,
                newEvents_append]
              simp
            · intro e he
              simp only [List.mem_cons, List.mem_append, List.not_mem_nil, or_false] at he
              rcases he with h | h | h | h
              · subst h; rfl
              · exact hrevE e h
              · subst h; rfl
              · subst h; rfl
            · simp
            · rw [applyOffline_downgrade u env path s sb cur hmap hcommit hrev hload hlt]
              simp
          · have hge : cur ≤ sb.commitTimestamp := by omega
            cases happly : (applyRun u env path).ok with
            | false =>
              refine ⟨.mappedFileNew path :: ((revParseRun u env).events ++
                .repoLoadCommit (revParseRun u env).out ::
                .statusStringChanged "Applying the update package..." ::
                (applyRun u env path).events), false, ?_, ?_, ?_, ?_⟩
              · rw [applyOffline_apply_failed u env path s sb cur hmap hcommit hrev hload hge
                  happly, newEvents_append]
                simp
              · intro e he
                simp only [List.mem_cons, List.mem_append] at he
                rcases he with h | h | h | h | h
                · subst h; rfl
                · exact hrevE e h
                · subst h; rfl
                · subst h; rfl
                · exact happE e h
              · simp
              · rw [applyOffline_apply_failed u env path s sb cur hmap hcommit hrev hload hge
                  happly]
                simp
            | true =>
              cases hcsum : sb.csumStructure with
              | some message =>
                refine ⟨.mappedFileNew path :: ((revParseRun u env).events ++
                  .repoLoadCommit (revParseRun u env).out ::
                  .statusStringChanged "Applying the update package..." ::
                  ((applyRun u env path).events ++ [.errorOccurred message, .sysrootUnlock])),
                  false, ?_, ?_, ?_, ?_⟩
                · rw [applyOffline_csum_invalid u env path s sb cur message hmap hcommit hrev
                    hload hge happly hcsum, newEvents_append]
                  simp
                · intro e he
                  simp only [List.mem_cons, List.mem_append, List.not_mem_nil, or_false] at he
                  rcases he with h | h | h | h | h | h | h
                  · subst h; rfl
                  · exact hrevE e h
                  · subst h; rfl
                  · subst h; rfl
                  · exact happE e h
                  · subst h; rfl
                  · subst h; rfl
                · simp
                · rw [applyOffline_csum_invalid u env path s sb cur message hmap hcommit hrev
                    hload hge happly hcsum]
                  simp
              | none =>
                have hresE := ostree_events_applyStep env.reset (resetCommand sb.toCsum) true u
                cases hreset : (resetRun u env sb.toCsum).ok with
                | false =>
                  refine ⟨.mappedFileNew path :: ((revParseRun u env).events ++
                    .repoLoadCommit (revParseRun u env).out ::
                    .statusStringChanged "Applying the update package..." ::
                    ((applyRun u env path).events ++ (resetRun u env sb.toCsum).events)),
                    false, ?_, ?_, ?_, ?_⟩
                  · rw [applyOffline_reset_failed u env path s sb cur hmap hcommit hrev
                      hload hge happly hcsum hreset, newEvents_append]
                    simp
                  · intro e he
                    simp only [List.mem_cons, List.mem_append] at he
                    rcases he with h | h | h | h | h | h
                    · subst h; rfl
                    · exact hrevE e h
                    · subst h; rfl
                    · subst h; rfl
                    · exact happE e h
                    · exact hresE e h
                  · simp
                  · rw [applyOffline_reset_failed u env path s sb cur hmap hcommit hrev
                      hload hge happly hcsum hreset]
                    simp
                | true =>
                  have hdepE := deployEvents_applyStep u env.deploy sb.toCsum
                  have hbody : ∀ e ∈ Event.mappedFileNew path :: ((revParseRun u env).events ++
                      Event.repoLoadCommit (revParseRun u env).out ::
                      Event.statusStringChanged "Applying the update package..." ::
                      ((applyRun u env path).events ++ ((resetRun u env sb.toCsum).events ++
                        deployEvents u env.deploy sb.toCsum))), e.isApplyStep = true := by
                    intro e he
                    simp only [List.mem_cons, List.mem_append] at he
                    rcases he with h | h | h | h | h | h | h
                    · subst h; rfl
                    · exact hrevE e h
                    · subst h; rfl
                    · subst h; rfl
                    · exact happE e h
                    · exact hresE e h
                    · exact hdepE e h
                  rcases deployCommit_dichotomy u env.deploy sb.toCsum with hdeploy | hdeploy
                  · refine ⟨_, true, ?_, hbody, ?_, ?_⟩
                    · rw [applyOffline_deploy u env path s sb cur true hmap hcommit hrev
                        hload hge happly hcsum hreset hdeploy, newEvents_append]
                      simp
                    · intro _
                      exact ⟨sb, cur, hmap, hcommit, hrev, hload, hge, happly, hcsum, hreset,
                        hdeploy⟩
                    · rw [applyOffline_deploy u env path s sb cur true hmap hcommit hrev
                        hload hge happly hcsum hreset hdeploy]
                      simp
                      intro h _; exact h
                  · refine ⟨_, false, ?_, hbody, ?_, ?_⟩
                    · rw [applyOffline_deploy u env path s sb cur false hmap hcommit hrev
                        hload hge happly hcsum hreset hdeploy, newEvents_append]
                      simp
                    · simp
                    · rw [applyOffline_deploy u env path s sb cur false hmap hcommit hrev
                        hload hge happly hcsum hreset hdeploy]
                      simp
                      intro h _; exact h

theorem applyOffline_bad_csum_events (u : Bool) (env : ApplyOfflineEnv) (path : String)
    (s : State) (sb : DeltaSuperblock) (message : String) (hmap : env.mappedFile = .ok sb)
    (hcsum : sb.csumStructure = some message) :
    ∀ e ∈ newEvents s (_applyOffline u env path s),
      e ∈ (revParseRun u env).events ∨ e ∈ (applyRun u env path).events ∨
        ((∀ c, e ≠ .processStart c) ∧ (∀ c, e ≠ .repoReadCommit c) ∧
          e ≠ .applyOfflineFinished true) := by
  intro e he
  cases hcommit : sb.commitStructure with
  | some message' =>
    rw [applyOffline_commit_invalid u env path s sb message' hmap hcommit,
      newEvents_append] at he
    simp only [List.mem_cons, List.mem_append, List.not_mem_nil, or_false] at he
    casesm* _ ∨ _
    all_goals first | exact Or.inl ‹_› | exact Or.inr (Or.inl ‹_›) | (subst_vars; simp)
  | none =>
    cases hrev : (revParseRun u env).ok with
    | false =>
      rw [applyOffline_revParse_failed u env path s sb hmap hcommit hrev,
        newEvents_append] at he
      simp only [List.mem_cons, List.mem_append, List.not_mem_nil, or_false] at he
      casesm* _ ∨ _
      all_goals first | exact Or.inl ‹_› | exact Or.inr (Or.inl ‹_›) | (subst_vars; simp)
    | true =>
      cases hload : env.loadCommit with
      | error message' =>
        rw [applyOffline_loadCommit_failed u env path s sb message' hmap hcommit hrev hload,
          newEvents_append] at he
        simp only [List.mem_cons, List.mem_append, List.not_mem_nil, or_false] at he
        casesm* _ ∨ _
        all_goals first | exact Or.inl ‹_› | exact Or.inr (Or.inl ‹_›) | (subst_vars; simp)
      | ok cur =>
        by_cases hlt : sb.commitTimestamp < cur
        · rw [applyOffline_downgrade u env path s sb cur hmap hcommit hrev hload hlt,
            newEvents_append] at he
          simp only [List.mem_cons, List.mem_append, List.not_mem_nil, or_false] at he
          casesm* _ ∨ _
          all_goals first | exact Or.inl ‹_› | exact Or.inr (Or.inl ‹_›) | (subst_vars; simp)
        · have hge : cur ≤ sb.commitTimestamp := by omega
          cases happly : (applyRun u env path).ok with
          | false =>
            rw [applyOffline_apply_failed u env path s sb cur hmap hcommit hrev hload hge
              happly, newEvents_append] at he
            simp only [List.mem_cons, List.mem_append, List.not_mem_nil, or_false] at he
            casesm* _ ∨ _
            all_goals first | exact Or.inl ‹_› | exact Or.inr (Or.inl ‹_›) | (subst_vars; simp)
          | true =>
            rw [applyOffline_csum_invalid u env path s sb cur message hmap hcommit hrev hload
              hge happly hcsum, newEvents_append] at he
            simp only [List.mem_cons, List.mem_append, List.not_mem_nil, or_false] at he
            casesm* _ ∨ _
            all_goals first | exact Or.inl ‹_› | exact Or.inr (Or.inl ‹_›) | (subst_vars; simp)

theorem initialize_lock_released (u : Bool) (env : InitializeEnv) (s s' : State)
    (h : _initialize u env s = some s') : s'.lockHeld = false := by
  unfold _initialize at h
  cases hlock : env.lock with
  | some message =>
    simp [multiprocessLock, emitGError, hlock, multiprocessUnlock, State.emit] at h
    rw [← h]
  | none =>
    cases hload : env.load with
    | error message =>
      simp [multiprocessLock, emitGError, sysrootLoad, hlock, hload, multiprocessUnlock,
        State.emit] at h
      rw [← h]
    | ok l =>
      simp [multiprocessLock, emitGError, sysrootLoad, hlock, hload, multiprocessUnlock,
        State.emit, resetRollbackState_eq, defaultRevision, Option.bind_eq_some] at h
      obtain ⟨_, _, _, _, h⟩ := h
      rw [← h]

theorem initialize_returns (u : Bool) (env : InitializeEnv) (s : State)
    (hbooted : env.booted.isSome = true) (hne : ∀ l, env.load = .ok l → l ≠ []) :
    ( _initialize u env s).isSome = true := by
  unfold _initialize
  cases hlock : env.lock with
  | some message =>
    simp [multiprocessLock, emitGError, hlock, multiprocessUnlock, State.emit]
  | none =>
    cases hload : env.load with
    | error message =>
      simp [multiprocessLock, emitGError, sysrootLoad, hlock, hload, multiprocessUnlock,
        State.emit]
    | ok l =>
      obtain ⟨b, hb⟩ := Option.isSome_iff_exists.mp hbooted
      cases l with
      | nil => exact absurd rfl (hne [] hload)
      | cons d rest =>
        simp [multiprocessLock, emitGError, sysrootLoad, hlock, hload, multiprocessUnlock,
          State.emit, resetRollbackState_eq, defaultRevision, hb]

theorem fetchRemoteInfo_lock_released (u : Bool) (env : FetchRemoteInfoEnv) (s : State) :
    (_fetchRemoteInfo u env s).lockHeld = false := by
  unfold _fetchRemoteInfo
  cases hlock : env.lock with
  | some message => simp [multiprocessLock, emitGError, hlock, multiprocessUnlock, State.emit]
  | none => simp [multiprocessLock, emitGError, hlock, multiprocessUnlock, State.emit]

/-! ## Rollback -/

/-- C1. For every loaded deployment list of length at least 2 (lock and reload succeeding),
`_rollback` calls the store's write exactly once, with a list of the same length whose first
element is the loaded element at position 1 and whose other elements are the loaded elements
except the one at position 1, in their original order. -/
theorem rollback_writes_reordered_list (u : Bool) (env : RollbackEnv) (s : State)
    (l : List Deployment) (hlock : env.lock = none) (hload : env.load = .ok l)
    (hlen : 2 ≤ l.length) :
    ∃ new post s', _rollback u env s = some s' ∧
      newEvents s s' =
        [.sysrootLock true, .sysrootLoad, .sysrootWriteDeployments new] ++ post ∧
      (∀ other, Event.sysrootWriteDeployments other ∉ post) ∧
      new.length = l.length ∧ new[0]? = l[1]? ∧ new.tail = l.eraseIdx 1 := by
  obtain ⟨a, b, rest, rfl⟩ : ∃ a b rest, l = a :: b :: rest := by
    match l, hlen with
    | a :: b :: rest, _ => exact ⟨a, b, rest, rfl⟩
  cases hw : env.write with
  | some message =>
    refine ⟨b :: a :: rest,
      [.errorOccurred message, .sysrootUnlock,
       .errorOccurred "Failed to update bootloader configuration",
       .rollbackFinished "" false, .sysrootUnlock],
      _, rollback_write_failed u env s a b rest message hlock hload hw, ?_, ?_, ?_⟩
    · rw [newEvents_append]; rfl
    · simp
    · simp
  | none =>
    refine ⟨b :: a :: rest,
      (info u env.rollbackInfo .Rollback true a.csum).events ++
        [.rollbackChanged a.csum (info u env.rollbackInfo .Rollback true a.csum).doc
           (rest.length + 2),
         .rollbackFinished b.csum true, .sysrootUnlock],
      _, rollback_written u env s a b rest hlock hload hw, ?_, ?_, ?_⟩
    · rw [newEvents_append, List.append_assoc]
    · intro other hmem
      simp only [List.mem_append, List.mem_cons, List.mem_singleton, reduceCtorEq,
        List.not_mem_nil, or_false] at hmem
      have := info_events_output u env.rollbackInfo .Rollback true a.csum _ hmem
      simp [Event.isProcessOutput] at this
    · simp

/-- A rollback of `[A, B, C]`. -/
theorem rollback_writes_reordered_list_witness :
    ∃ new post s', _rollback false (rollbackEnvOf [⟨"A"⟩, ⟨"B"⟩, ⟨"C"⟩]) idleState = some s' ∧
      newEvents idleState s' =
        [.sysrootLock true, .sysrootLoad, .sysrootWriteDeployments new] ++ post ∧
      (∀ other, Event.sysrootWriteDeployments other ∉ post) ∧
      new.length = [(⟨"A"⟩ : Deployment), ⟨"B"⟩, ⟨"C"⟩].length ∧
      new[0]? = [(⟨"A"⟩ : Deployment), ⟨"B"⟩, ⟨"C"⟩][1]? ∧
      new.tail = [(⟨"A"⟩ : Deployment), ⟨"B"⟩, ⟨"C"⟩].eraseIdx 1 :=
  rollback_writes_reordered_list false (rollbackEnvOf [⟨"A"⟩, ⟨"B"⟩, ⟨"C"⟩]) idleState
    [⟨"A"⟩, ⟨"B"⟩, ⟨"C"⟩] rfl rfl (by decide)

/-- C2. For every loaded deployment list of length below 2 (lock and reload succeeding),
`_rollback` makes no call of the store's write, reports the error "At least 2 system versions
required for rollback", emits `rollbackFinished("", false)` and releases the lock; the list in
memory is the loaded one. -/
theorem rollback_too_few_deployments (u : Bool) (env : RollbackEnv) (s : State)
    (l : List Deployment) (hlock : env.lock = none) (hload : env.load = .ok l)
    (hlen : l.length < 2) :
    ∃ s', _rollback u env s = some s' ∧
      newEvents s s' =
        [.sysrootLock true, .sysrootLoad,
         .errorOccurred "At least 2 system versions required for rollback",
         .rollbackFinished "" false, .sysrootUnlock] ∧
      (∀ written, Event.sysrootWriteDeployments written ∉ newEvents s s') ∧
      s'.deployments = l ∧ s'.lockHeld = false := by
  refine ⟨_, rollback_too_few u env s l hlock hload hlen, ?_, ?_, rfl, rfl⟩
  · rw [newEvents_append]
  · rw [newEvents_append]; simp

/-- A rollback with the single deployment `[A]`. -/
theorem rollback_too_few_deployments_witness :
    ∃ s', _rollback false (rollbackEnvOf [⟨"A"⟩]) idleState = some s' ∧
      newEvents idleState s' =
        [.sysrootLock true, .sysrootLoad,
         .errorOccurred "At least 2 system versions required for rollback",
         .rollbackFinished "" false, .sysrootUnlock] ∧
      (∀ written, Event.sysrootWriteDeployments written ∉ newEvents idleState s') ∧
      s'.deployments = [⟨"A"⟩] ∧ s'.lockHeld = false :=
  rollback_too_few_deployments false (rollbackEnvOf [⟨"A"⟩]) idleState [⟨"A"⟩] rfl rfl
    (by decide)

/-- Counterexample to C5 as stated: when the lock cannot be acquired, and when the state
reload fails, `_rollback` reports the error and returns without emitting
`rollbackFinished`. -/
theorem rollback_early_failures_no_terminal_event :
    _rollback false lockBusyEnv idleState =
      some { lockHeld := false, deployments := [],
             trace := [.sysrootLock false, .errorOccurred "lock busy", .sysrootUnlock] } ∧
    Event.rollbackFinished "" false ∉
      [Event.sysrootLock false, .errorOccurred "lock busy", .sysrootUnlock] ∧
    _rollback false reloadFailsEnv idleState =
      some { lockHeld := false, deployments := [],
             trace := [.sysrootLock true, .sysrootLoad, .errorOccurred "no sysroot",
               .sysrootUnlock] } ∧
    Event.rollbackFinished "" false ∉
      [Event.sysrootLock true, .sysrootLoad, .errorOccurred "no sysroot", .sysrootUnlock] := by
  refine ⟨?_, ?_, ?_, ?_⟩
  · exact rollback_lock_failed false lockBusyEnv idleState "lock busy" rfl
  · decide
  · exact rollback_load_failed false reloadFailsEnv idleState "no sysroot" rfl rfl
  · decide

/-- C5 (amended). Every failure path of `_rollback` (lock acquisition failure, state reload
failure, fewer than 2 deployments, failure to write the new list) reports an error and ends
with the lock not held; with fewer than 2 deployments, and when the write of the new list
fails, `rollbackFinished("", false)` is emitted right after an error report. -/
theorem rollback_failure_paths (u : Bool) (env : RollbackEnv) (s : State) :
    (∀ message, env.lock = some message →
      ∃ s', _rollback u env s = some s' ∧ s'.lockHeld = false ∧
        Event.errorOccurred message ∈ newEvents s s') ∧
    (∀ message, env.lock = none → env.load = .error message →
      ∃ s', _rollback u env s = some s' ∧ s'.lockHeld = false ∧
        Event.errorOccurred message ∈ newEvents s s') ∧
    (∀ l, env.lock = none → env.load = .ok l → l.length < 2 →
      ∃ s', _rollback u env s = some s' ∧ s'.lockHeld = false ∧
        newEvents s s' =
          [.sysrootLock true, .sysrootLoad,
           .errorOccurred "At least 2 system versions required for rollback",
           .rollbackFinished "" false, .sysrootUnlock]) ∧
    (∀ l message, env.lock = none → env.load = .ok l → 2 ≤ l.length →
      env.write = some message →
      ∃ s' written, _rollback u env s = some s' ∧ s'.lockHeld = false ∧
        newEvents s s' =
          [.sysrootLock true, .sysrootLoad, .sysrootWriteDeployments written,
           .errorOccurred message, .sysrootUnlock,
           .errorOccurred "Failed to update bootloader configuration",
           .rollbackFinished "" false, .sysrootUnlock]) := by
  refine ⟨?_, ?_, ?_, ?_⟩
  · intro message hlock
    exact ⟨_, rollback_lock_failed u env s message hlock, rfl,
      by rw [newEvents_append]; simp⟩
  · intro message hlock hload
    exact ⟨_, rollback_load_failed u env s message hlock hload, rfl,
      by rw [newEvents_append]; simp⟩
  · intro l hlock hload hlen
    exact ⟨_, rollback_too_few u env s l hlock hload hlen, rfl, by rw [newEvents_append]⟩
  · intro l message hlock hload hlen hwrite
    obtain ⟨a, b, rest, rfl⟩ : ∃ a b rest, l = a :: b :: rest := by
      match l, hlen with
      | a :: b :: rest, _ => exact ⟨a, b, rest, rfl⟩
    exact ⟨_, b :: a :: rest, rollback_write_failed u env s a b rest message hlock hload hwrite,
      rfl, by rw [newEvents_append]⟩

/-- The four failure paths of `_rollback`, each on a sample run. -/
theorem rollback_failure_paths_witness :
    (∃ s', _rollback false lockBusyEnv idleState = some s' ∧ s'.lockHeld = false ∧
      Event.errorOccurred "lock busy" ∈ newEvents idleState s') ∧
    (∃ s', _rollback false reloadFailsEnv idleState = some s' ∧ s'.lockHeld = false ∧
      Event.errorOccurred "no sysroot" ∈ newEvents idleState s') ∧
    (∃ s', _rollback false (rollbackEnvOf [⟨"A"⟩]) idleState = some s' ∧ s'.lockHeld = false ∧
      newEvents idleState s' =
        [.sysrootLock true, .sysrootLoad,
         .errorOccurred "At least 2 system versions required for rollback",
         .rollbackFinished "" false, .sysrootUnlock]) ∧
    (∃ s' written,
      _rollback false { rollbackEnvOf [⟨"A"⟩, ⟨"B"⟩] with write := some "read-only" } idleState =
        some s' ∧ s'.lockHeld = false ∧
      newEvents idleState s' =
        [.sysrootLock true, .sysrootLoad, .sysrootWriteDeployments written,
         .errorOccurred "read-only", .sysrootUnlock,
         .errorOccurred "Failed to update bootloader configuration",
         .rollbackFinished "" false, .sysrootUnlock]) :=
  ⟨(rollback_failure_paths false lockBusyEnv idleState).1 "lock busy" rfl,
   (rollback_failure_paths false reloadFailsEnv idleState).2.1 "no sysroot" rfl rfl,
   (rollback_failure_paths false (rollbackEnvOf [⟨"A"⟩]) idleState).2.2.1 [⟨"A"⟩] rfl rfl
      (by decide),
   (rollback_failure_paths false { rollbackEnvOf [⟨"A"⟩, ⟨"B"⟩] with write := some "read-only" }
      idleState).2.2.2 [⟨"A"⟩, ⟨"B"⟩] "read-only" rfl rfl (by decide) rfl⟩

/-- C9. For every deployment list of length at least 2, a rollback whose write succeeds
writes the list with its first two elements exchanged, and a second rollback that reloads
the written list and whose write succeeds writes the original list again: `[A, B]` becomes
`[B, A]` and then `[A, B]`. -/
theorem rollback_twice_restores (u : Bool) (env1 : RollbackEnv) (s : State)
    (l : List Deployment) (hlen : 2 ≤ l.length) (hlock : env1.lock = none)
    (hload : env1.load = .ok l) (hwrite : env1.write = none) :
    ∃ a b rest s1, l = a :: b :: rest ∧ _rollback u env1 s = some s1 ∧
      Event.sysrootWriteDeployments (b :: a :: rest) ∈ newEvents s s1 ∧
      s1.deployments = b :: a :: rest ∧
      ∀ env2 : RollbackEnv, env2.lock = none → env2.load = .ok (b :: a :: rest) →
        env2.write = none →
        ∃ s2, _rollback u env2 s1 = some s2 ∧
          Event.sysrootWriteDeployments l ∈ newEvents s1 s2 ∧ s2.deployments = l := by
  obtain ⟨a, b, rest, rfl⟩ : ∃ a b rest, l = a :: b :: rest := by
    match l, hlen with
    | a :: b :: rest, _ => exact ⟨a, b, rest, rfl⟩
  refine ⟨a, b, rest, _, rfl, rollback_written u env1 s a b rest hlock hload hwrite, ?_, rfl, ?_⟩
  · rw [newEvents_append]; simp
  · intro env2 hlock2 hload2 hwrite2
    refine ⟨_, rollback_written u env2 _ b a rest hlock2 hload2 hwrite2, ?_, rfl⟩
    rw [newEvents_append]; simp

/-- The scenario of the specification: `[A, B]`, rolled back twice. -/
theorem rollback_twice_restores_witness :
    ∃ a b rest s1, [(⟨"A"⟩ : Deployment), ⟨"B"⟩] = a :: b :: rest ∧
      _rollback false (rollbackEnvOf [⟨"A"⟩, ⟨"B"⟩]) idleState = some s1 ∧
      Event.sysrootWriteDeployments (b :: a :: rest) ∈ newEvents idleState s1 ∧
      s1.deployments = b :: a :: rest ∧
      ∀ env2 : RollbackEnv, env2.lock = none → env2.load = .ok (b :: a :: rest) →
        env2.write = none →
        ∃ s2, _rollback false env2 s1 = some s2 ∧
          Event.sysrootWriteDeployments [⟨"A"⟩, ⟨"B"⟩] ∈ newEvents s1 s2 ∧
          s2.deployments = [⟨"A"⟩, ⟨"B"⟩] :=
  rollback_twice_restores false (rollbackEnvOf [⟨"A"⟩, ⟨"B"⟩]) idleState [⟨"A"⟩, ⟨"B"⟩]
    (by decide) rfl rfl rfl


/-! ## The command executor -/

/-- Counterexample to C10 as stated: a command that exits with status 1 without printing a
line that starts with "error:" leaves `ok` true. -/
theorem ostree_ignores_exit_status :
    failingExitRun.started = true ∧ failingExitRun.exitCode = 1 ∧
    (ostree failingExitRun "ostree pull qt-os:abc" true true).ok = true ∧
    (ostree failingExitRun "ostree pull qt-os:abc" true true).events =
      [.processStart "ostree pull qt-os:abc",
       .statusStringChanged "fatal: repository is corrupted"] := by
  decide

/-- C10 (amended). `ostree(command, ok)` sets `ok` to false when the command fails to start,
when a wait fails with an error other than a timeout, and when a line it reads starts with
"error:"; for a command that starts and finishes without such a line `ok` keeps its value,
and the exit status has no influence on the result. Each line read that starts with "error:"
is reported through `errorOccurred`, and no `statusStringChanged` carries such a line. -/
theorem ostree_ok_and_error_lines (p : ProcessRun) (c : String) (ok u : Bool) :
    (p.started = false → (ostree p c ok u).ok = false) ∧
    (p.started = true → p.finished = false → (ostree p c ok u).ok = false) ∧
    (p.started = true → p.finished = true →
      (ostree p c ok u).ok =
        (ok && (p.timedOut.flatten ++ p.lastLines).all (fun raw => !isErrorLine raw))) ∧
    (∀ code, ostree { p with exitCode := code } c ok u = ostree p c ok u) ∧
    (p.started = true →
      ∀ raw ∈ p.timedOut.flatten ++ (if p.finished then p.lastLines else []),
        isErrorLine raw = true →
        Event.errorOccurred (parseErrorString (trimmed raw)) ∈ (ostree p c ok u).events) ∧
    statusClean (ostree p c ok u).events := by
  refine ⟨?_, ?_, ?_, ?_, ?_, ?_⟩
  · intro h; simp [ostree_ok, h]
  · intro _ h; simp [ostree_ok, h]
  · intro h1 h2; simp [ostree_ok, h1, h2]
  · intro code; exact ostree_exitCode p code c ok u
  · intro hs raw hraw herr; exact ostree_reports p c ok u raw hs hraw herr
  · exact ostree_statusClean p c ok u

/-- Sample runs of `ostree`: a command that does not start, one that crashes, one that exits
with status 1, and one that prints an error report. -/
theorem ostree_ok_and_error_lines_witness :
    (ostree notStartedRun "ostree rev-parse linux/qt" true false).ok = false ∧
    (ostree crashedRun "ostree rev-parse linux/qt" true false).ok = false ∧
    (ostree failingExitRun "ostree rev-parse linux/qt" true false).ok =
      (true && (failingExitRun.timedOut.flatten ++ failingExitRun.lastLines).all
        (fun raw => !isErrorLine raw)) ∧
    Event.errorOccurred (parseErrorString (trimmed "error: Remote \"qt-os\" not found\n")) ∈
      (ostree errorLineRun "ostree rev-parse linux/qt" true false).events :=
  ⟨(ostree_ok_and_error_lines notStartedRun "ostree rev-parse linux/qt" true false).1 rfl,
   (ostree_ok_and_error_lines crashedRun "ostree rev-parse linux/qt" true false).2.1 rfl rfl,
   (ostree_ok_and_error_lines failingExitRun "ostree rev-parse linux/qt" true false).2.2.1
     rfl rfl,
   (ostree_ok_and_error_lines errorLineRun "ostree rev-parse linux/qt" true false).2.2.2.2.1
     rfl "error: Remote \"qt-os\" not found\n" (by decide) (by decide)⟩

/-! ## Update -/

/-- C8. When the pull of `_update` leaves `ok` false, `_update` releases the lock, runs neither
the deploy step nor the state reload, and emits `updateFinished("", false)`; and in every
run of `_update` that reaches the deploy step, the event just before `deployCommit` starts is
the release of the lock, so the lock is not held there. -/
theorem update_pull_failure_and_unlock (u : Bool) (env : UpdateEnv) (rev : String) (s : State) :
    (env.lock = none →
      (ostree env.pull (qarg "ostree pull qt-os:%1" rev) true true).ok = false →
      ∃ s', _update u env rev s = some s' ∧ s'.lockHeld = false ∧
        newEvents s s' =
          .sysrootLock true :: .statusStringChanged "Checking for missing objects..." ::
            ((ostree env.pull (qarg "ostree pull qt-os:%1" rev) true true).events ++
              [.sysrootUnlock, .updateFinished "" false]) ∧
        (∀ c, Event.repoReadCommit c ∉ newEvents s s') ∧
        (∀ c, Event.processStart c ∈ newEvents s s' → c = "ostree pull qt-os:" ++ rev) ∧
        Event.sysrootLoad ∉ newEvents s s') ∧
    (∀ s' pre c post, _update u env rev s = some s' →
      newEvents s s' = pre ++ .repoReadCommit c :: post →
      (∃ before, pre = before ++ [.sysrootUnlock]) ∧ lockAfter s.lockHeld pre = false) ∧
    ((∀ l, env.load = .ok l → l ≠ []) → (_update u env rev s).isSome = true) := by
  have hpullOut := ostree_events_output env.pull (qarg "ostree pull qt-os:%1" rev) true true
  refine ⟨?_, ?_, ?_⟩
  · intro hlock hpull
    refine ⟨_, update_pull_failed u env rev s hlock hpull, rfl, ?_⟩
    rw [newEvents_append]
    refine ⟨rfl, ?_, ?_, ?_⟩
    · intro c hmem
      simp only [List.mem_cons, List.mem_append, List.mem_singleton, reduceCtorEq,
        List.not_mem_nil, or_false, false_or] at hmem
      exact not_readCommit_of_output _ (hpullOut _ hmem) ⟨c, rfl⟩
    · intro c hmem
      simp only [List.mem_cons, List.mem_append, List.mem_singleton, reduceCtorEq,
        List.not_mem_nil, or_false, false_or] at hmem
      obtain ⟨rest, hrest, hside⟩ := ostree_events env.pull
        (qarg "ostree pull qt-os:%1" rev) true true
      rw [hrest] at hmem
      rcases List.mem_cons.mp hmem with h | h
      · rw [← pullCommand_eq]; exact Event.processStart.inj h
      · have := hside _ h
        simp [Event.isSideChannel] at this
    · intro hmem
      simp only [List.mem_cons, List.mem_append, List.mem_singleton, reduceCtorEq,
        List.not_mem_nil, or_false, false_or] at hmem
      have := hpullOut _ hmem
      simp [Event.isProcessOutput] at this
  · intro s' pre c post hrun hsplit
    have hpre := update_unlock_before_deploy u env rev s s' hrun pre post c hsplit
    constructor
    · exact ⟨.sysrootLock true :: .statusStringChanged "Checking for missing objects..." ::
        (ostree env.pull (qarg "ostree pull qt-os:%1" rev) true true).events,
        by rw [hpre]; simp⟩
    · rw [hpre]
      exact lockAfter_unlock s.lockHeld (.sysrootLock true ::
        .statusStringChanged "Checking for missing objects..." ::
        (ostree env.pull (qarg "ostree pull qt-os:%1" rev) true true).events)
  · exact update_returns u env rev s

/-- An update whose pull prints an error report, and an update in which every step
succeeds. -/
theorem update_pull_failure_and_unlock_witness :
    (∃ s', _update false { smoothUpdate with pull := errorLineRun } "new" idleState = some s' ∧
      s'.lockHeld = false ∧
      newEvents idleState s' =
        .sysrootLock true :: .statusStringChanged "Checking for missing objects..." ::
          ((ostree errorLineRun (qarg "ostree pull qt-os:%1" "new") true true).events ++
            [.sysrootUnlock, .updateFinished "" false]) ∧
      (∀ c, Event.repoReadCommit c ∉ newEvents idleState s') ∧
      (∀ c, Event.processStart c ∈ newEvents idleState s' → c = "ostree pull qt-os:" ++ "new") ∧
      Event.sysrootLoad ∉ newEvents idleState s') ∧
    ((∃ before,
        [Event.sysrootLock true, .statusStringChanged "Checking for missing objects...",
          .processStart "ostree pull qt-os:new", .sysrootUnlock] = before ++ [.sysrootUnlock]) ∧
      lockAfter idleState.lockHeld
        [Event.sysrootLock true, .statusStringChanged "Checking for missing objects...",
          .processStart "ostree pull qt-os:new", .sysrootUnlock] = false) ∧
    (_update false smoothUpdate "new" idleState).isSome = true :=
  ⟨(update_pull_failure_and_unlock false { smoothUpdate with pull := errorLineRun } "new"
      idleState).1 rfl (by decide),
   (update_pull_failure_and_unlock false smoothUpdate "new" idleState).2.1
      { lockHeld := false, deployments := [⟨"new"⟩, ⟨"old"⟩],
        trace := [.sysrootLock true, .statusStringChanged "Checking for missing objects...",
          .processStart "ostree pull qt-os:new", .sysrootUnlock, .repoReadCommit "new",
          .statusStringChanged "Deploying...",
          .processStart "ostree admin deploy --karg-none  new", .sysrootLoad,
          .processStart "ostree cat old /usr/etc/qt-ota.json",
          .rollbackChanged "old" ⟨none⟩ 2, .updateFinished "new" true] }
      [.sysrootLock true, .statusStringChanged "Checking for missing objects...",
        .processStart "ostree pull qt-os:new", .sysrootUnlock]
      "new"
      [.statusStringChanged "Deploying...",
        .processStart "ostree admin deploy --karg-none  new", .sysrootLoad,
        .processStart "ostree cat old /usr/etc/qt-ota.json",
        .rollbackChanged "old" ⟨none⟩ 2, .updateFinished "new" true]
      (by decide) (by decide),
   (update_pull_failure_and_unlock false smoothUpdate "new" idleState).2.2
      (fun l h => by cases h; simp)⟩


/-! ## Offline update -/

/-- C3. When the package maps, its commit payload is valid, the branch head is found, and the
package timestamp is strictly below the head's, `_applyOffline` reports the downgrade error
with both timestamps and emits `applyOfflineFinished(false)`; `ostree rev-parse linux/qt` is the
only command it starts, and the deploy step is not entered. -/
theorem applyOffline_downgrade_rejected (u : Bool) (env : ApplyOfflineEnv) (path : String)
    (s : State) (sb : DeltaSuperblock) (cur : Nat) (hmap : env.mappedFile = .ok sb)
    (hcommit : sb.commitStructure = none) (hrev : (revParseRun u env).ok = true)
    (hload : env.loadCommit = .ok cur) (hlt : sb.commitTimestamp < cur) :
    newEvents s (_applyOffline u env path s) =
      .mappedFileNew path :: ((revParseRun u env).events ++
        [.repoLoadCommit (revParseRun u env).out,
         .errorOccurred ("Not allowed to downgrade - current timestamp: " ++ toString cur ++
           ", package timestamp: " ++ toString sb.commitTimestamp),
         .applyOfflineFinished false]) ∧
    (∀ c, Event.processStart c ∈ newEvents s (_applyOffline u env path s) →
      c = "ostree rev-parse linux/qt") ∧
    Event.processStart ("ostree static-delta apply-offline " ++ path) ∉
      newEvents s (_applyOffline u env path s) ∧
    (∀ toCsum, Event.processStart ("ostree reset qt-os:linux/qt " ++ toCsum) ∉
      newEvents s (_applyOffline u env path s)) ∧
    (∀ c, Event.repoReadCommit c ∉ newEvents s (_applyOffline u env path s)) ∧
    Event.applyOfflineFinished true ∉ newEvents s (_applyOffline u env path s) := by
  have hrun := applyOffline_downgrade u env path s sb cur hmap hcommit hrev hload hlt
  have hout := ostree_events_output env.revParse "ostree rev-parse linux/qt" true u
  have honly : ∀ c, Event.processStart c ∈ newEvents s (_applyOffline u env path s) →
      c = "ostree rev-parse linux/qt" := by
    intro c hmem
    rw [hrun, newEvents_append] at hmem
    simp only [List.mem_cons, List.mem_append, reduceCtorEq, List.not_mem_nil, or_false,
      false_or] at hmem
    exact processStart_mem_ostree _ _ _ _ _ hmem
  refine ⟨?_, honly, ?_, ?_, ?_, ?_⟩
  · rw [hrun, newEvents_append, downgradeMessage_eq]
  · intro hmem
    have := congrArg String.data (honly _ hmem)
    simp at this
  · intro toCsum hmem
    have := congrArg String.data (honly _ hmem)
    simp at this
  · intro c hmem
    rw [hrun, newEvents_append] at hmem
    simp only [List.mem_cons, List.mem_append, reduceCtorEq, List.not_mem_nil, or_false,
      false_or] at hmem
    have := hout _ hmem
    simp [Event.isProcessOutput] at this
  · intro hmem
    rw [hrun, newEvents_append] at hmem
    simp only [List.mem_cons, List.mem_append, reduceCtorEq, List.not_mem_nil, or_false,
      false_or, Event.applyOfflineFinished.injEq, Bool.true_eq_false] at hmem
    have := hout _ hmem
    simp [Event.isProcessOutput] at this

/-- The scenario of the specification: current timestamp 100, package timestamp 90. -/
theorem applyOffline_downgrade_rejected_witness :
    newEvents idleState (_applyOffline false (offlineEnv 90 100) "update.delta" idleState) =
      .mappedFileNew "update.delta" :: ((revParseRun false (offlineEnv 90 100)).events ++
        [.repoLoadCommit (revParseRun false (offlineEnv 90 100)).out,
         .errorOccurred ("Not allowed to downgrade - current timestamp: " ++ toString 100 ++
           ", package timestamp: " ++ toString (deltaOf 90).commitTimestamp),
         .applyOfflineFinished false]) ∧
    (∀ c, Event.processStart c ∈
        newEvents idleState (_applyOffline false (offlineEnv 90 100) "update.delta" idleState) →
      c = "ostree rev-parse linux/qt") ∧
    Event.processStart ("ostree static-delta apply-offline " ++ "update.delta") ∉
      newEvents idleState (_applyOffline false (offlineEnv 90 100) "update.delta" idleState) ∧
    (∀ toCsum, Event.processStart ("ostree reset qt-os:linux/qt " ++ toCsum) ∉
      newEvents idleState (_applyOffline false (offlineEnv 90 100) "update.delta" idleState)) ∧
    (∀ c, Event.repoReadCommit c ∉
      newEvents idleState (_applyOffline false (offlineEnv 90 100) "update.delta" idleState)) ∧
    Event.applyOfflineFinished true ∉
      newEvents idleState (_applyOffline false (offlineEnv 90 100) "update.delta" idleState) :=
  applyOffline_downgrade_rejected false (offlineEnv 90 100) "update.delta" idleState
    (deltaOf 90) 100 rfl rfl (by decide) rfl (by decide)

/-- Counterexample to C4 as stated: with a valid commit payload and an invalid checksum
vector the `apply-offline` command is run before the checksum vector is validated, whether
the command then succeeds or reports an error itself. -/
theorem applyOffline_invalid_csum_after_apply :
    _applyOffline false badCsumEnv "update.delta" idleState =
      { lockHeld := false, deployments := [],
        trace := [.mappedFileNew "update.delta", .processStart "ostree rev-parse linux/qt",
          .repoLoadCommit "c0ffee", .statusStringChanged "Applying the update package...",
          .processStart "ostree static-delta apply-offline update.delta",
          .errorOccurred "Invalid checksum", .sysrootUnlock, .applyOfflineFinished false] } ∧
    _applyOffline false refusedCsumEnv "update.delta" idleState =
      { lockHeld := false, deployments := [],
        trace := [.mappedFileNew "update.delta", .processStart "ostree rev-parse linux/qt",
          .repoLoadCommit "c0ffee", .statusStringChanged "Applying the update package...",
          .processStart "ostree static-delta apply-offline update.delta",
          .errorOccurred "Invalid checksum", .applyOfflineFinished false] } := by
  decide

/-- C4 (amended). In `_applyOffline` a package that cannot be mapped, or whose commit payload
fails validation, aborts the pipeline before any command is run. An invalid checksum vector
is found only after the `apply-offline` command has run without error; with such a vector the
`reset` command and the deploy step are never run, whatever the other collaborators answer. -/
theorem applyOffline_validation_failures (u : Bool) (env : ApplyOfflineEnv) (path : String)
    (s : State) :
    (∀ message,
      (env.mappedFile = .error message ∨
        ∃ sb, env.mappedFile = .ok sb ∧ sb.commitStructure = some message) →
      newEvents s (_applyOffline u env path s) =
        [.mappedFileNew path, .errorOccurred message, .sysrootUnlock,
         .applyOfflineFinished false]) ∧
    (∀ sb message, env.mappedFile = .ok sb → sb.csumStructure = some message →
      (∀ c, Event.processStart c ∈ newEvents s (_applyOffline u env path s) →
        c = "ostree rev-parse linux/qt" ∨ c = "ostree static-delta apply-offline " ++ path) ∧
      (∀ toCsum, Event.processStart ("ostree reset qt-os:linux/qt " ++ toCsum) ∉
        newEvents s (_applyOffline u env path s)) ∧
      (∀ c, Event.repoReadCommit c ∉ newEvents s (_applyOffline u env path s)) ∧
      Event.applyOfflineFinished true ∉ newEvents s (_applyOffline u env path s)) ∧
    (∀ sb cur message, env.mappedFile = .ok sb → sb.commitStructure = none →
      (revParseRun u env).ok = true → env.loadCommit = .ok cur → cur ≤ sb.commitTimestamp →
      (applyRun u env path).ok = true → sb.csumStructure = some message →
      newEvents s (_applyOffline u env path s) =
        .mappedFileNew path :: ((revParseRun u env).events ++
          .repoLoadCommit (revParseRun u env).out ::
          .statusStringChanged "Applying the update package..." ::
          ((applyRun u env path).events ++
            [.errorOccurred message, .sysrootUnlock, .applyOfflineFinished false])) ∧
      Event.processStart ("ostree static-delta apply-offline " ++ path) ∈
        (applyRun u env path).events) := by
  refine ⟨?_, ?_, ?_⟩
  · rintro message (hmap | ⟨sb, hmap, hcommit⟩)
    · rw [applyOffline_map_failed u env path s message hmap, newEvents_append]
    · rw [applyOffline_commit_invalid u env path s sb message hmap hcommit, newEvents_append]
  · intro sb message hmap hcsum
    have hall := applyOffline_bad_csum_events u env path s sb message hmap hcsum
    have hrevOut := ostree_events_output env.revParse "ostree rev-parse linux/qt" true u
    have happOut := ostree_events_output env.applyOffline (applyOfflineCommand path) true u
    have hstart : ∀ c, Event.processStart c ∈ newEvents s (_applyOffline u env path s) →
        c = "ostree rev-parse linux/qt" ∨ c = "ostree static-delta apply-offline " ++ path := by
      intro c hmem
      rcases hall _ hmem with h | h | h
      · exact Or.inl (processStart_mem_ostree _ _ _ _ _ h)
      · right
        rw [← applyOfflineCommand_eq]
        exact processStart_mem_ostree _ _ _ _ _ h
      · exact absurd rfl (h.1 c)
    refine ⟨hstart, ?_, ?_, ?_⟩
    · intro toCsum hmem
      rcases hstart _ hmem with h | h
      · have := congrArg String.data h
        simp at this
      · have := congrArg String.data h
        simp at this
    · intro c hmem
      rcases hall _ hmem with h | h | h
      · have := hrevOut _ h
        simp [Event.isProcessOutput] at this
      · have := happOut _ h
        simp [Event.isProcessOutput] at this
      · exact absurd rfl (h.2.1 c)
    · intro hmem
      rcases hall _ hmem with h | h | h
      · have := hrevOut _ h
        simp [Event.isProcessOutput] at this
      · have := happOut _ h
        simp [Event.isProcessOutput] at this
      · exact absurd rfl h.2.2
  · intro sb cur message hmap hcommit hrev hload hge happly hcsum
    constructor
    · rw [applyOffline_csum_invalid u env path s sb cur message hmap hcommit hrev hload hge
        happly hcsum, newEvents_append]
    · obtain ⟨rest, hrest, _⟩ := ostree_events env.applyOffline (applyOfflineCommand path)
        true u
      unfold applyRun
      rw [hrest, applyOfflineCommand_eq]
      simp

/-- A package that cannot be mapped, and a package with an invalid checksum vector. -/
theorem applyOffline_validation_failures_witness :
    newEvents idleState
        (_applyOffline false { offlineEnv 100 100 with mappedFile := .error "No such file" }
          "update.delta" idleState) =
      [.mappedFileNew "update.delta", .errorOccurred "No such file", .sysrootUnlock,
       .applyOfflineFinished false] ∧
    ((∀ c, Event.processStart c ∈
          newEvents idleState (_applyOffline false badCsumEnv "update.delta" idleState) →
        c = "ostree rev-parse linux/qt" ∨
          c = "ostree static-delta apply-offline " ++ "update.delta") ∧
      (∀ toCsum, Event.processStart ("ostree reset qt-os:linux/qt " ++ toCsum) ∉
        newEvents idleState (_applyOffline false badCsumEnv "update.delta" idleState)) ∧
      (∀ c, Event.repoReadCommit c ∉
        newEvents idleState (_applyOffline false badCsumEnv "update.delta" idleState)) ∧
      Event.applyOfflineFinished true ∉
        newEvents idleState (_applyOffline false badCsumEnv "update.delta" idleState)) ∧
    (newEvents idleState (_applyOffline false badCsumEnv "update.delta" idleState) =
        .mappedFileNew "update.delta" :: ((revParseRun false badCsumEnv).events ++
          .repoLoadCommit (revParseRun false badCsumEnv).out ::
          .statusStringChanged "Applying the update package..." ::
          ((applyRun false badCsumEnv "update.delta").events ++
            [.errorOccurred "Invalid checksum", .sysrootUnlock,
             .applyOfflineFinished false])) ∧
      Event.processStart ("ostree static-delta apply-offline " ++ "update.delta") ∈
        (applyRun false badCsumEnv "update.delta").events) :=
  ⟨(applyOffline_validation_failures false
      { offlineEnv 100 100 with mappedFile := .error "No such file" } "update.delta"
      idleState).1 "No such file" (Or.inl rfl),
   (applyOffline_validation_failures false badCsumEnv "update.delta" idleState).2.1
      { deltaOf 100 with csumStructure := some "Invalid checksum" } "Invalid checksum" rfl rfl,
   (applyOffline_validation_failures false badCsumEnv "update.delta" idleState).2.2
      { deltaOf 100 with csumStructure := some "Invalid checksum" } 100 "Invalid checksum"
      rfl rfl (by decide) rfl (by decide) (by decide) rfl⟩

/-- C6. No run of a public operation ends with the lock held: `_initialize`,
`_fetchRemoteInfo`, `_update` and `_rollback` leave the lock released on every path, whatever
the collaborators answer, and `_applyOffline` never takes the lock, so that it ends without
the lock when it started without it. `_fetchRemoteInfo`, `_rollback` and `_applyOffline` always
return, and so do `_initialize` and `_update` when the booted deployment exists and a
reloaded deployment list is not empty. -/
theorem lock_released_by_every_operation (u : Bool) :
    (∀ (env : InitializeEnv) (s s' : State),
      _initialize u env s = some s' → s'.lockHeld = false) ∧
    (∀ (env : FetchRemoteInfoEnv) (s : State), (_fetchRemoteInfo u env s).lockHeld = false) ∧
    (∀ (env : UpdateEnv) (rev : String) (s s' : State),
      _update u env rev s = some s' → s'.lockHeld = false) ∧
    (∀ (env : RollbackEnv) (s : State),
      ∃ s', _rollback u env s = some s' ∧ s'.lockHeld = false) ∧
    (∀ (env : ApplyOfflineEnv) (path : String) (s : State),
      (∀ acquired, Event.sysrootLock acquired ∉ newEvents s (_applyOffline u env path s)) ∧
      (s.lockHeld = false → (_applyOffline u env path s).lockHeld = false)) ∧
    (∀ (env : InitializeEnv) (s : State), env.booted.isSome = true →
      (∀ l, env.load = .ok l → l ≠ []) → ( _initialize u env s).isSome = true) ∧
    (∀ (env : UpdateEnv) (rev : String) (s : State),
      (∀ l, env.load = .ok l → l ≠ []) → (_update u env rev s).isSome = true) := by
  refine ⟨?_, ?_, ?_, ?_, ?_, ?_, ?_⟩
  · exact fun env s s' h => initialize_lock_released u env s s' h
  · exact fun env s => fetchRemoteInfo_lock_released u env s
  · exact fun env rev s s' h => update_lock_released u env rev s s' h
  · exact fun env s => rollback_lock_released u env s
  · intro env path s
    obtain ⟨body, success, hnew, hbody, _, hlock⟩ := applyOffline_shape u env path s
    constructor
    · intro acquired hmem
      rw [hnew] at hmem
      rcases List.mem_append.mp hmem with h | h
      · have := hbody _ h
        simp [Event.isApplyStep] at this
      · simp at h
    · intro hs
      cases hl : (_applyOffline u env path s).lockHeld with
      | false => rfl
      | true => rw [hlock hl] at hs; cases hs
  · exact fun env s hb hne => initialize_returns u env s hb hne
  · exact fun env rev s hne => update_returns u env rev s hne

/-- Sample runs of `_initialize`, `_update` and `_applyOffline`. -/
theorem lock_released_by_every_operation_witness :
    (∃ s', _initialize false smoothInitialize idleState = some s' ∧ s'.lockHeld = false) ∧
    (∃ s', _update false { smoothUpdate with pull := errorLineRun } "new" idleState = some s' ∧
      s'.lockHeld = false) ∧
    (_applyOffline false badCsumEnv "update.delta" idleState).lockHeld = false ∧
    ( _initialize false smoothInitialize idleState).isSome = true ∧
    (_update false smoothUpdate "new" idleState).isSome = true :=
  have hinit : _initialize false smoothInitialize idleState = some
      { lockHeld := false, deployments := [⟨"A"⟩, ⟨"B"⟩],
        trace := [.sysrootLock true, .sysrootLoad, .processStart "ostree rev-parse linux/qt",
          .processStart "ostree cat c0ffee /usr/etc/qt-ota.json",
          .processStart "ostree cat B /usr/etc/qt-ota.json",
          .rollbackChanged "B" ⟨none⟩ 2,
          .initializeFinished "A" "A" ⟨some "\x7b\"version\":\"1.2\"\x7d"⟩ "c0ffee" ⟨none⟩,
          .sysrootUnlock] } := by decide
  have hupdate : _update false { smoothUpdate with pull := errorLineRun } "new" idleState = some
      { lockHeld := false, deployments := [],
        trace := [.sysrootLock true, .statusStringChanged "Checking for missing objects...",
          .processStart "ostree pull qt-os:new",
          .statusStringChanged "Receiving objects: 10%",
          .errorOccurred "Repository configuration not found",
          .sysrootUnlock, .updateFinished "" false] } := by decide
  ⟨⟨_, hinit, (lock_released_by_every_operation false).1 smoothInitialize idleState _ hinit⟩,
   ⟨_, hupdate, (lock_released_by_every_operation false).2.2.1
      { smoothUpdate with pull := errorLineRun } "new" idleState _ hupdate⟩,
   ((lock_released_by_every_operation false).2.2.2.2.1 badCsumEnv "update.delta"
      idleState).2 rfl,
   (lock_released_by_every_operation false).2.2.2.2.2.1 smoothInitialize idleState rfl
      (fun l h => by cases h; simp),
   (lock_released_by_every_operation false).2.2.2.2.2.2 smoothUpdate "new" idleState
      (fun l h => by cases h; simp)⟩

end QOta
